import Mathlib

/-!
Shallow embedding of the hackbattle learning-app repository:
roadmap extraction (src/app/page.tsx, src/app/chat/page.tsx),
practice generation (src/app/actions/quiz.ts) and the chat/pathway
persistence actions (src/app/actions/chat.ts, both variants).

JS strings are modelled as `List Char`; JSON numbers are kept in exact
decimal-scientific form (JS numbers are floats, but no claim depends on
binary rounding).
`JSON.parse` is modelled by a fuel-based recursive-descent parser
over the JSON grammar.
-/

/-- A JavaScript/JSON value as produced by `JSON.parse`.  A number is kept in
exact decimal-scientific form: `num m s` denotes the value `m / 10 ^ s`
(JS numbers are floats; the decimal inputs relevant here are exact). -/
inductive Json where
  | null : Json
  | bool (b : Bool) : Json
  | num (m : ℤ) (s : ℕ) : Json
  | str (s : List Char) : Json
  | arr (elems : List Json) : Json
  | obj (fields : List (List Char × Json)) : Json

/-- Convert a Lean string literal to the `List Char` representation of JS strings. -/
def cs (s : String) : List Char := s.data

/-- JSON grammar whitespace (space, tab, line feed, carriage return). -/
def isJsonWs (c : Char) : Bool :=
  c = ' ' || c = '\t' || c = '\n' || c = '\r'

/-- Whitespace recognised by JS `String.prototype.trim` (the code points relevant here). -/
def isJsWs (c : Char) : Bool :=
  c = ' ' || c = '\t' || c = '\n' || c = '\r' ||
  c = Char.ofNat 0x0b || c = Char.ofNat 0x0c || c = Char.ofNat 0xa0 || c = Char.ofNat 0xfeff

/-- JS `s.trim()`. -/
def jsTrim (s : List Char) : List Char :=
  ((s.dropWhile isJsWs).reverse.dropWhile isJsWs).reverse

/-- JS `s.trim()` on the `String` representation. -/
def jsTrimStr (s : String) : String := String.mk (jsTrim s.data)

/-- JS `s.indexOf(c)` (as `Option`: `none` models `-1`). -/
def idxOf? (c : Char) : List Char → Option Nat
  | [] => none
  | x :: r => if x = c then some 0 else (idxOf? c r).map (· + 1)

/-- JS `s.lastIndexOf(c)` (as `Option`: `none` models `-1`). -/
def lastIdxOf? (c : Char) (s : List Char) : Option Nat :=
  (idxOf? c s.reverse).map (fun i => s.length - 1 - i)

/-- JS `s.slice(a, b)` for non-negative `a`, `b`. -/
def jsSlice (s : List Char) (a b : Nat) : List Char :=
  (s.take b).drop a

/-- Numeric value of a list of decimal digits. -/
def digitsToNat (ds : List Char) : Nat :=
  ds.foldl (fun n c => n * 10 + (c.toNat - 48)) 0

/-- Drop JSON whitespace. -/
def skipWs (s : List Char) : List Char := s.dropWhile isJsonWs

/-- Hex digit value. -/
def hexVal (c : Char) : Option Nat :=
  if '0' ≤ c ∧ c ≤ '9' then some (c.toNat - 48)
  else if 'a' ≤ c ∧ c ≤ 'f' then some (c.toNat - 87)
  else if 'A' ≤ c ∧ c ≤ 'F' then some (c.toNat - 55)
  else none

/-- Parse the body of a JSON string literal (after the opening quote).
Returns the string contents and the remaining input. -/
def parseStringBody (acc : List Char) : List Char → Option (List Char × List Char)
  | [] => none
  | '"' :: r => some (acc.reverse, r)
  | '\\' :: 'u' :: h1 :: h2 :: h3 :: h4 :: r =>
    match hexVal h1, hexVal h2, hexVal h3, hexVal h4 with
    | some a, some b, some c, some d =>
      parseStringBody (Char.ofNat (((a * 16 + b) * 16 + c) * 16 + d) :: acc) r
    | _, _, _, _ => none
  | '\\' :: e :: r =>
    if e = '"' then parseStringBody ('"' :: acc) r
    else if e = '\\' then parseStringBody ('\\' :: acc) r
    else if e = '/' then parseStringBody ('/' :: acc) r
    else if e = 'b' then parseStringBody (Char.ofNat 8 :: acc) r
    else if e = 'f' then parseStringBody (Char.ofNat 12 :: acc) r
    else if e = 'n' then parseStringBody ('\n' :: acc) r
    else if e = 'r' then parseStringBody ('\r' :: acc) r
    else if e = 't' then parseStringBody ('\t' :: acc) r
    else none
  | c :: r =>
    if c.toNat < 0x20 then none else parseStringBody (c :: acc) r

/-- Parse a JSON number (sign, integer part, optional fraction, optional exponent). -/
def parseNumber (s : List Char) : Option (Json × List Char) :=
  let signed : Bool × List Char := match s with
    | '-' :: r => (true, r)
    | _ => (false, s)
  let neg := signed.1
  let s1 := signed.2
  let ip := s1.span (·.isDigit)
  let ids := ip.1
  let s2 := ip.2
  match ids with
  | [] => none
  | '0' :: _ :: _ => none
  | _ =>
    let fracStep : Option (List Char × List Char) := match s2 with
      | '.' :: r =>
        let fp := r.span (·.isDigit)
        if fp.1.isEmpty then none else some (fp.1, fp.2)
      | _ => some ([], s2)
    match fracStep with
    | none => none
    | some (fds, s3) =>
      let expStep : Option (Bool × List Char × List Char) := match s3 with
        | 'e' :: r =>
          let sgn : Bool × List Char := match r with
            | '+' :: r2 => (false, r2)
            | '-' :: r2 => (true, r2)
            | _ => (false, r)
          let ep := sgn.2.span (·.isDigit)
          if ep.1.isEmpty then none else some (sgn.1, ep.1, ep.2)
        | 'E' :: r =>
          let sgn : Bool × List Char := match r with
            | '+' :: r2 => (false, r2)
            | '-' :: r2 => (true, r2)
            | _ => (false, r)
          let ep := sgn.2.span (·.isDigit)
          if ep.1.isEmpty then none else some (sgn.1, ep.1, ep.2)
        | _ => some (false, [], s3)
      match expStep with
      | none => none
      | some (eneg, eds, s4) =>
        let mant : ℤ := (digitsToNat (ids ++ fds) : ℤ)
        let mantSigned : ℤ := if neg then -mant else mant
        let e : ℤ :=
          (if eneg then -(digitsToNat eds : ℤ) else (digitsToNat eds : ℤ)) - (fds.length : ℤ)
        if 0 ≤ e then some (Json.num (mantSigned * (10 : ℤ) ^ e.toNat) 0, s4)
        else some (Json.num mantSigned (-e).toNat, s4)

mutual

/-- Parse one JSON value (fuel-based recursion). -/
def parseValue : Nat → List Char → Option (Json × List Char)
  | 0, _ => none
  | fuel + 1, s =>
    match skipWs s with
    | [] => none
    | c :: rest =>
      if c = '{' then
        match skipWs rest with
        | '}' :: r => some (Json.obj [], r)
        | r => parseMembers fuel r []
      else if c = '[' then
        match skipWs rest with
        | ']' :: r => some (Json.arr [], r)
        | r => parseElems fuel r []
      else if c = '"' then
        (parseStringBody [] rest).map (fun p => (Json.str p.1, p.2))
      else
        match c :: rest with
        | 't' :: 'r' :: 'u' :: 'e' :: r => some (Json.bool true, r)
        | 'f' :: 'a' :: 'l' :: 's' :: 'e' :: r => some (Json.bool false, r)
        | 'n' :: 'u' :: 'l' :: 'l' :: r => some (Json.null, r)
        | s' => parseNumber s'

/-- Parse the elements of a non-empty JSON array (after `[`). -/
def parseElems : Nat → List Char → List Json → Option (Json × List Char)
  | 0, _, _ => none
  | fuel + 1, s, acc =>
    match parseValue fuel s with
    | none => none
    | some (v, r) =>
      match skipWs r with
      | ',' :: r2 => parseElems fuel r2 (v :: acc)
      | ']' :: r2 => some (Json.arr (v :: acc).reverse, r2)
      | _ => none

/-- Parse the members of a non-empty JSON object (after `{`). -/
def parseMembers : Nat → List Char → List (List Char × Json) → Option (Json × List Char)
  | 0, _, _ => none
  | fuel + 1, s, acc =>
    match skipWs s with
    | '"' :: r =>
      match parseStringBody [] r with
      | none => none
      | some (key, r2) =>
        match skipWs r2 with
        | ':' :: r3 =>
          match parseValue fuel r3 with
          | none => none
          | some (v, r4) =>
            match skipWs r4 with
            | ',' :: r5 => parseMembers fuel r5 ((key, v) :: acc)
            | '}' :: r5 => some (Json.obj ((key, v) :: acc).reverse, r5)
            | _ => none
        | _ => none
    | _ => none

end

/-- Model of `JSON.parse`: parse a complete JSON document, rejecting trailing garbage.
`none` models a thrown `SyntaxError`. -/
def parseJson (s : List Char) : Option Json :=
  match parseValue (2 * s.length + 4) s with
  | some (v, rest) => if skipWs rest = [] then some v else none
  | none => none

/-! ## Roadmap extractor (`tryExtractRoadmapFromText`, src/app/page.tsx & src/app/chat/page.tsx) -/

/-- JS property access `j.key` / `j?.key` on a parsed JSON value: `none` models
`undefined` (non-object receiver or missing key); for duplicate keys the last wins,
as in `JSON.parse`. -/
def jsGet (j : Json) (key : List Char) : Option Json :=
  match j with
  | Json.obj fields => lookupLastField fields key
  | _ => none
where
  lookupLastField : List (List Char × Json) → List Char → Option Json
    | [], _ => none
    | (k, v) :: r, key =>
      match lookupLastField r key with
      | some w => some w
      | none => if k = key then some v else none

/-- Is the value a JSON string equal to `s`?  Models `x === "s"` for a string literal. -/
def isStrEq (j : Option Json) (s : List Char) : Bool :=
  match j with
  | some (Json.str t) => t = s
  | _ => false

/-- Models `typeof x === "string"` on a property-access result. -/
def isStr (j : Option Json) : Bool :=
  match j with
  | some (Json.str _) => true
  | _ => false

/-- The per-subtopic check `s?.type === "SUBTOPIC" && typeof s.name === "string"`. -/
def subtopicOk (s : Json) : Bool :=
  isStrEq (jsGet s (cs "type")) (cs "SUBTOPIC") && isStr (jsGet s (cs "name"))

/-- The per-topic check in `tryExtractRoadmapFromText`. -/
def topicOk (t : Json) : Bool :=
  isStrEq (jsGet t (cs "type")) (cs "TOPIC") &&
  isStr (jsGet t (cs "name")) &&
  (match jsGet t (cs "subtopics") with
   | some (Json.arr ss) => ss.all subtopicOk
   | _ => false)

/-- `tryExtractRoadmapFromText` (identical in src/app/page.tsx and
src/app/chat/page.tsx): locate the first `[` and the last `]`; if either is
missing or the `]` is not strictly after the `[`, return `none`; otherwise
JSON-parse the (trimmed) bracketed span and return the parsed array exactly
when every element passes the Topic-shape check.  `none` models `null`. -/
def tryExtractRoadmapFromText (text : List Char) : Option (List Json) :=
  match idxOf? '[' text, lastIdxOf? ']' text with
  | some first, some last =>
    if last ≤ first then none
    else
      match parseJson (jsTrim (jsSlice text first (last + 1))) with
      | none => none
      | some (Json.arr elems) => if elems.all topicOk then some elems else none
      | some _ => none
  | _, _ => none

/-- The fallback sentence shown when the whole AI message was the roadmap JSON. -/
def roadmapPlaceholder : List Char :=
  cs "I've created an interactive roadmap for you below. Click on any topic circle to explore its subtopics."

/-- Join the non-empty parts with a blank line: `[before, after].filter(Boolean).join("\n\n")`. -/
def joinNonEmpty (parts : List (List Char)) : List Char :=
  List.intercalate (cs "\n\n") (parts.filter (fun p => ¬p.isEmpty))

/-- The AI-message display logic of `ChatMessages`: when a roadmap was extracted,
strip the bracketed span and show the surrounding prose (or a placeholder when
none remains); otherwise show the content unchanged. -/
def displayedAiContent (content : List Char) : List Char :=
  match tryExtractRoadmapFromText content with
  | some _ =>
    match idxOf? '[' content, lastIdxOf? ']' content with
    | some first, some last =>
      if first < last then
        let beforeJson := jsTrim (jsSlice content 0 first)
        let afterJson := jsTrim (content.drop (last + 1))
        let cleanContent := jsTrim (joinNonEmpty [beforeJson, afterJson])
        if ¬cleanContent.isEmpty then cleanContent else roadmapPlaceholder
      else content
    | _, _ => content
  | none => content

/-! ## Practice generator (`generatePractice`, src/app/actions/quiz.ts) -/

/-- A kept MCQ / short-answer candidate is the raw JSON object that passed the filter. -/
structure GeneratedPractice where
  mcqs : List Json
  texts : List Json

/-- Input of `generatePractice`.  `numMcqs`/`numTexts` model the optional count knobs. -/
structure GeneratePracticeInput where
  topic : List Char
  subtopic : List Char
  roadmap : Json
  numMcqs : Option Int
  numTexts : Option Int

/-- The external world seen by `generatePractice`: the configured API key
(`process.env.GOOGLE_API_KEY`) and the outcome of the outbound
`model.generateContent` call (`Except.error` models a rejected promise,
`Except.ok` the response text). -/
structure GenEnv where
  apiKey : Option String
  net : Except String (List Char)

/-- `Math.max(1, Math.min(input.numMcqs ?? 3, 6))`. -/
def clampMcqCount (n : Option Int) : Int := max 1 (min (n.getD 3) 6)

/-- `Math.max(1, Math.min(input.numTexts ?? 2, 4))`. -/
def clampTextCount (n : Option Int) : Int := max 1 (min (n.getD 2) 4)

/-- The MCQ filter: `question` a string, `options` an array of exactly 4 entries,
`correctIndex` an integer with `0 ≤ correctIndex < 4`. -/
def mcqFilterOk (q : Json) : Bool :=
  isStr (jsGet q (cs "question")) &&
  (match jsGet q (cs "options") with
   | some (Json.arr opts) => opts.length = 4
   | _ => false) &&
  (match jsGet q (cs "correctIndex") with
   | some (Json.num m s) => m % (10 : ℤ) ^ s = 0 && 0 ≤ m && m < 4 * 10 ^ s
   | _ => false)

/-- The short-answer filter: `prompt` is a string. -/
def textFilterOk (t : Json) : Bool :=
  isStr (jsGet t (cs "prompt"))

/-- `Array.isArray(parsed?.mcqs) ? parsed.mcqs : []` (and likewise for `texts`). -/
def arrayProp (parsed : Json) (key : List Char) : List Json :=
  match jsGet parsed key with
  | some (Json.arr l) => l
  | _ => []

/-- `generatePractice`: with no API key, fail open with empty results; otherwise
submit the request; on a successful response, trim it, `JSON.parse` it inside
`try`, keep the candidates passing the structural filters truncated to the
clamped counts, and on a parse failure fail open with empty results.  The
outbound call itself is outside the `try`: its failure propagates
(`Except.error`). -/
def generatePractice (env : GenEnv) (input : GeneratePracticeInput) :
    Except String GeneratedPractice :=
  match env.apiKey with
  | none => Except.ok ⟨[], []⟩
  | some _ =>
    let numMcqs := clampMcqCount input.numMcqs
    let numTexts := clampTextCount input.numTexts
    match env.net with
    | Except.error e => Except.error e
    | Except.ok resText =>
      let raw := jsTrim resText
      match parseJson raw with
      | none => Except.ok ⟨[], []⟩
      | some parsed =>
        Except.ok
          ⟨((arrayProp parsed (cs "mcqs")).filter mcqFilterOk).take numMcqs.toNat,
           ((arrayProp parsed (cs "texts")).filter textFilterOk).take numTexts.toNat⟩

/-! ## Persistence layer (src/app/actions/chat.ts, both variants)

The Prisma-backed store is modelled as an explicit in-memory state.
Record ids and creation order come from one monotone counter `nextId`;
wall-clock time (`Date.now()`, `@updatedAt`, `new Date()`) is an explicit
`now` parameter.  A thrown JS error is `Except.error` with its message;
a returned `{ ok: false, error }` value is `Res.notOk`. -/

/-- `"user" | "ai"` message role tag. -/
inductive MsgType where
  | user
  | ai
deriving DecidableEq, Repr

/-- A chat message `{ id, type, content, timestamp }`. -/
structure ChatMessage where
  id : String
  type : MsgType
  content : String
  timestamp : Int
deriving DecidableEq, Repr

/-- An audit-trail entry `{ type, ts, data? }` of `ChatMeta.events`. -/
structure EventRec where
  type : String
  ts : Nat
  data : Option Json

/-- The `Chat.meta` JSON blob.  `none` in a field models the key being absent. -/
structure ChatMeta where
  messages : Option (List ChatMessage)
  roadmap : Option Json
  ui : Option (List (String × Json))
  events : Option (List EventRec)

/-- A `meta` blob with no keys (`{}`). -/
def emptyMeta : ChatMeta := ⟨none, none, none, none⟩

/-- A `User` row. `createdAt` is the creation sequence number. -/
structure User where
  id : Nat
  email : Option String
  name : Option String
  createdAt : Nat
deriving DecidableEq, Repr

/-- A `Chat` row. -/
structure Chat where
  id : Nat
  userId : Nat
  title : Option String
  userSubjectId : Option String
  meta : ChatMeta
  startedAt : Nat
  updatedAt : Nat
  deletedAt : Option Nat

/-- Pathway lifecycle status. -/
inductive PathwayStatus where
  | DRAFT
  | ACTIVE
  | COMPLETED
  | ARCHIVED
deriving DecidableEq, Repr

/-- A `Pathway` row (`chatId` is unique in the schema). -/
structure Pathway where
  id : Nat
  userId : Nat
  chatId : Nat
  title : Option String
  status : PathwayStatus
  planSpec : Json

/-- The database state. -/
structure DBState where
  users : List User
  chats : List Chat
  pathways : List Pathway
  nextId : Nat

/-- The NextAuth session as read by the actions: `session?.user?.email` and
`session?.user?.name` (both possibly absent). -/
structure Session where
  email : Option String
  name : Option String

/-- A returned result value: `{ ok: true, ...v }` or `{ ok: false, error }`. -/
inductive Res (α : Type) where
  | ok (v : α)
  | notOk (error : String)

/-- JS truthiness of an optional string (`undefined`, `null` and `""` are falsy). -/
def optStrTruthy : Option String → Bool
  | some s => ¬(s = "")
  | none => false

/-- `session?.user?.email?.trim() || null`. -/
def normEmail (sess : Session) : Option String :=
  match sess.email with
  | some e => let t := jsTrimStr e; if t = "" then none else some t
  | none => none

/-- `session?.user?.name?.trim() || null`. -/
def normName (sess : Session) : Option String :=
  match sess.name with
  | some n => let t := jsTrimStr n; if t = "" then none else some t
  | none => none

/-- The reserved guest sentinel email. -/
def guestEmail : String := "guest@example.com"

/-- `prisma.user.findFirst({ where: { email } })`. -/
def findUserByEmail (st : DBState) (e : String) : Option User :=
  st.users.find? (fun u => u.email = some e)

/-- `prisma.user.findFirst({ where: { name }, orderBy: { createdAt: "desc" } })`:
the most recently created user with that exact name. -/
def findLatestUserByName (n : String) (us : List User) : Option User :=
  us.foldl
    (fun acc u =>
      if u.name = some n then
        match acc with
        | none => some u
        | some b => if b.createdAt < u.createdAt then some u else some b
      else acc)
    none

/-- `prisma.user.create`: append a fresh row, drawing id and creation sequence
from the counter. -/
def createUser (st : DBState) (email : Option String) (name : Option String) :
    Nat × DBState :=
  (st.nextId,
   { st with
       users := st.users ++ [⟨st.nextId, email, name, st.nextId⟩],
       nextId := st.nextId + 1 })

/-- Replace the name of the user with the given id (the upsert `update` branch). -/
def updateUserName (st : DBState) (uid : Nat) (name : Option String) : DBState :=
  { st with
      users := st.users.map (fun u => if u.id = uid then { u with name := name } else u) }

/-- `ensureGuestUserId`: upsert the reserved guest user by its sentinel email. -/
def ensureGuestUserId (st : DBState) : Nat × DBState :=
  match findUserByEmail st guestEmail with
  | some g => (g.id, st)
  | none => createUser st (some guestEmail) (some "Guest")

/-- `resolveUserIdFromSession`, first (incomplete) variant of
src/app/actions/chat.ts: the email branch does a bare `findFirst` and then
dereferences `user.id` (a `TypeError` when no such user exists), and the
name branch dereferences the never-assigned `created` when no user with the
name exists (a `ReferenceError`). -/
def resolveUserIdV1 (sess : Session) (st : DBState) : Except String (Nat × DBState) :=
  match normEmail sess with
  | some e =>
    match findUserByEmail st e with
    | some u => Except.ok (u.id, st)
    | none => Except.error "TypeError: Cannot read properties of null (reading 'id')"
  | none =>
    match normName sess with
    | some n =>
      match findLatestUserByName n st.users with
      | some u => Except.ok (u.id, st)
      | none => Except.error "ReferenceError: created is not defined"
    | none => Except.ok (ensureGuestUserId st)

/-- `resolveUserIdFromSession`, second (complete) variant of
src/app/actions/chat.ts: email upsert (refreshing the name when supplied),
else find-most-recent-by-name or create a nameless-email user, else guest. -/
def resolveUserIdV2 (sess : Session) (st : DBState) : Nat × DBState :=
  match normEmail sess with
  | some e =>
    match findUserByEmail st e with
    | some u =>
      (u.id,
       updateUserName st u.id (match normName sess with
         | some n => some n
         | none => u.name))
    | none => createUser st (some e) (normName sess)
  | none =>
    match normName sess with
    | some n =>
      match findLatestUserByName n st.users with
      | some u => (u.id, st)
      | none => createUser st none (some n)
    | none => ensureGuestUserId st

/-- `whoami`: resolve through `resolveUserIdFromSession` (first variant) only
when the raw session name is truthy, else fall straight back to the guest user. -/
def whoami (sess : Session) (st : DBState) : Except String (Nat × DBState) :=
  if optStrTruthy sess.name then resolveUserIdV1 sess st
  else Except.ok (ensureGuestUserId st)

/-- `prisma.chat.findUnique({ where: { id } })`. -/
def findChat (st : DBState) (cid : Nat) : Option Chat :=
  st.chats.find? (fun c => c.id = cid)

/-- Update the chat with the given id in place. -/
def mapChat (st : DBState) (cid : Nat) (f : Chat → Chat) : DBState :=
  { st with chats := st.chats.map (fun c => if c.id = cid then f c else c) }

/-- The shared not-found-or-not-owned message. -/
def ownErrMsg : String := "Chat not found or not owned by user."

/-- `assertOwnChat`: throws (models `throw new Error(...)`) when the chat is
missing or owned by someone else; only reads `userId`, never `deletedAt`. -/
def assertOwnChat (st : DBState) (cid : Nat) (userId : Nat) : Except String Unit :=
  match findChat st cid with
  | some c => if c.userId = userId then Except.ok () else Except.error ownErrMsg
  | none => Except.error ownErrMsg

/-- Last-wins lookup in a JS object modelled as an association list. -/
def lookupLastS : List (String × Json) → String → Option Json
  | [], _ => none
  | (k, v) :: r, key =>
    match lookupLastS r key with
    | some w => some w
    | none => if k = key then some v else none

/-- JS object spread `{ ...a, ...b }`: keys of `a` keep their position with
values overridden by `b`, keys only in `b` are appended. -/
def mergeObj (a b : List (String × Json)) : List (String × Json) :=
  a.map (fun kv => (kv.1, (lookupLastS b kv.1).getD kv.2)) ++
  b.filter (fun kv => (lookupLastS a kv.1).isNone)

/-- The `select { id, title, updatedAt, startedAt }` projection of `listChats`. -/
structure ChatListItem where
  id : Nat
  title : Option String
  updatedAt : Nat
  startedAt : Nat
deriving DecidableEq, Repr

/-- The snapshot returned by `getChatSnapshot`. -/
structure ChatSnapshot where
  id : Nat
  title : Option String
  messages : List ChatMessage
  roadmap : Json
  updatedAt : Nat
  startedAt : Nat

/-- Parameters of `createChat` (first variant). -/
structure CreateChatParams where
  title : Option String
  userSubjectId : Option String
  initialMessages : Option (List ChatMessage)
  initialRoadmap : Option Json

/-- `createChat` (first variant): resolve the caller via `whoami`, then create a
chat seeded with the initial snapshot and a `createChat` audit event. -/
def createChat (sess : Session) (now : Nat) (st : DBState) (p : CreateChatParams) :
    Except String ((Res Nat) × DBState) :=
  match whoami sess st with
  | Except.error e => Except.error e
  | Except.ok (userId, st1) =>
    let chat : Chat :=
      { id := st1.nextId,
        userId := userId,
        title := p.title,
        userSubjectId := p.userSubjectId,
        meta :=
          { messages := some (p.initialMessages.getD []),
            roadmap := some (p.initialRoadmap.getD Json.null),
            ui := none,
            events := some [⟨"createChat", now, none⟩] },
        startedAt := now,
        updatedAt := now,
        deletedAt := none }
    Except.ok (Res.ok chat.id,
      { st1 with chats := st1.chats ++ [chat], nextId := st1.nextId + 1 })

/-- Insert into a list kept sorted by `updatedAt` descending. -/
def insertByUpdatedDesc (c : ChatListItem) : List ChatListItem → List ChatListItem
  | [] => [c]
  | x :: r => if x.updatedAt ≤ c.updatedAt then c :: x :: r else x :: insertByUpdatedDesc c r

/-- Sort by `updatedAt` descending (`orderBy: { updatedAt: "desc" }`). -/
def sortByUpdatedDesc (l : List ChatListItem) : List ChatListItem :=
  l.foldr insertByUpdatedDesc []

/-- `listChats`: the caller's chats with `deletedAt: null`, newest first,
projected to `{ id, title, updatedAt, startedAt }`. -/
def listChats (sess : Session) (st : DBState) :
    Except String ((Res (List ChatListItem)) × DBState) :=
  match whoami sess st with
  | Except.error e => Except.error e
  | Except.ok (userId, st1) =>
    let items :=
      (st1.chats.filter (fun c => c.userId = userId && c.deletedAt = none)).map
        (fun c => ChatListItem.mk c.id c.title c.updatedAt c.startedAt)
    Except.ok (Res.ok (sortByUpdatedDesc items), st1)

/-- `getChatSnapshot`: `whoami`, `assertOwnChat` (which may throw), then read the
meta blob, defaulting absent keys (`messages ?? []`, `roadmap ?? null`). -/
def getChatSnapshot (sess : Session) (st : DBState) (chatId : Nat) :
    Except String ((Res ChatSnapshot) × DBState) :=
  match whoami sess st with
  | Except.error e => Except.error e
  | Except.ok (userId, st1) =>
    match assertOwnChat st1 chatId userId with
    | Except.error e => Except.error e
    | Except.ok _ =>
      match findChat st1 chatId with
      | none => Except.error "TypeError: Cannot read properties of null (reading 'id')"
      | some chat =>
        Except.ok (Res.ok
          { id := chat.id,
            title := chat.title,
            messages := (chat.meta.messages).getD [],
            roadmap := (chat.meta.roadmap).getD Json.null,
            updatedAt := chat.updatedAt,
            startedAt := chat.startedAt }, st1)

/-- Parameters of `saveChatSnapshot`. -/
structure SaveSnapshotParams where
  chatId : Nat
  messages : List ChatMessage
  roadmap : Option Json
  titleFallback : Option String

/-- The row update performed by `saveChatSnapshot`: the whole `meta` blob is
replaced by `{ messages, roadmap }`, the title backfilled once (only when the
fallback is truthy and the current title falsy), `updatedAt` bumped. -/
def saveSnapshotUpdate (p : SaveSnapshotParams) (now : Nat) (c : Chat) : Chat :=
  { c with
      meta :=
        { messages := some p.messages,
          roadmap := some (p.roadmap.getD Json.null),
          ui := none,
          events := none },
      title := if optStrTruthy p.titleFallback && ¬optStrTruthy c.title
               then p.titleFallback else c.title,
      updatedAt := now }

/-- `saveChatSnapshot` (first variant, resolving via the incomplete
`resolveUserIdFromSession`): ownership is checked inline and a failure is
returned as a `{ ok: false }` value; on success the whole `meta` blob is
replaced by `{ messages, roadmap }` and the title is backfilled once. -/
def saveChatSnapshot (sess : Session) (now : Nat) (st : DBState)
    (p : SaveSnapshotParams) : Except String ((Res Unit) × DBState) :=
  match resolveUserIdV1 sess st with
  | Except.error e => Except.error e
  | Except.ok (userId, st1) =>
    match findChat st1 p.chatId with
    | none => Except.ok (Res.notOk ownErrMsg, st1)
    | some chat =>
      if chat.userId ≠ userId then Except.ok (Res.notOk ownErrMsg, st1)
      else
        Except.ok (Res.ok (), mapChat st1 p.chatId (saveSnapshotUpdate p now))

/-- Parameters of `appendTurn`. -/
structure AppendTurnParams where
  chatId : Nat
  userMsg : ChatMessage
  aiMsg : ChatMessage
  roadmap : Option Json
  uiPatch : Option (List (String × Json))

/-- The audit event appended by `appendTurn`. -/
def appendTurnEvent (now : Nat) (userMsg : ChatMessage) : EventRec :=
  ⟨"appendTurn", now, some (Json.obj [(cs "len", Json.num (userMsg.content.length : ℤ) 0)])⟩

/-- `appendTurn`: `whoami`, `assertOwnChat` (uncaught throw on failure), then in
one transaction append the two messages, optionally replace the roadmap,
optionally spread the ui patch, append one audit event, and backfill the title
from the first user message when the chat has none. -/
def appendTurn (sess : Session) (now : Nat) (st : DBState) (p : AppendTurnParams) :
    Except String ((Res Unit) × DBState) :=
  match whoami sess st with
  | Except.error e => Except.error e
  | Except.ok (userId, st1) =>
    match assertOwnChat st1 p.chatId userId with
    | Except.error e => Except.error e
    | Except.ok _ =>
      let current := findChat st1 p.chatId
      let meta := (current.map Chat.meta).getD emptyMeta
      let messages := (meta.messages).getD [] ++ [p.userMsg, p.aiMsg]
      let nextMeta : ChatMeta :=
        { messages := some messages,
          roadmap := match p.roadmap with
            | some r => some r
            | none => meta.roadmap,
          ui := match p.uiPatch with
            | some patch => some (mergeObj ((meta.ui).getD []) patch)
            | none => meta.ui,
          events := some ((meta.events).getD [] ++ [appendTurnEvent now p.userMsg]) }
      let maybeTitle : Option (Option String) :=
        if ¬optStrTruthy (current.bind Chat.title) && ¬messages.isEmpty then
          some (match messages.find? (fun m => m.type = MsgType.user) with
            | some m => some (m.content.take 60)
            | none => none)
        else none
      match current with
      | none => Except.error "RecordNotFound"
      | some _ =>
        Except.ok (Res.ok (),
          mapChat st1 p.chatId (fun c =>
            { c with
                meta := nextMeta,
                title := match maybeTitle with
                  | some t => t
                  | none => c.title,
                updatedAt := now }))

/-- `renameChat`: guarded title update (`assertOwnChat` throw is uncaught). -/
def renameChat (sess : Session) (now : Nat) (st : DBState) (chatId : Nat)
    (title : String) : Except String ((Res Unit) × DBState) :=
  match whoami sess st with
  | Except.error e => Except.error e
  | Except.ok (userId, st1) =>
    match assertOwnChat st1 chatId userId with
    | Except.error e => Except.error e
    | Except.ok _ =>
      Except.ok (Res.ok (),
        mapChat st1 chatId (fun c => { c with title := some title, updatedAt := now }))

/-- `deleteChat`: soft delete, setting `deletedAt` (`assertOwnChat` throw is uncaught). -/
def deleteChat (sess : Session) (now : Nat) (st : DBState) (chatId : Nat) :
    Except String ((Res Unit) × DBState) :=
  match whoami sess st with
  | Except.error e => Except.error e
  | Except.ok (userId, st1) =>
    match assertOwnChat st1 chatId userId with
    | Except.error e => Except.error e
    | Except.ok _ =>
      Except.ok (Res.ok (),
        mapChat st1 chatId (fun c => { c with deletedAt := some now, updatedAt := now }))

/-! ## Pathway store (`savePlanAsPathway`) -/

/-- Parameters of `savePlanAsPathway` (`plan` is the roadmap payload stored
verbatim into `planSpec`). -/
structure SavePlanParams where
  chatId : Nat
  plan : Json
  title : Option String
  status : Option PathwayStatus

/-- Result of `savePlanAsPathway`: `{ pathwayId, created }`. -/
structure PathwayResult where
  pathwayId : Nat
  created : Bool
deriving DecidableEq, Repr

/-- The inline identity resolution of `savePlanAsPathway`: if the raw session
email is truthy, a bare `findFirst` by that email (possibly `undefined`,
modelled as `none`); otherwise the guest upsert. -/
def pathwayResolveUser (sess : Session) (st : DBState) : (Option Nat) × DBState :=
  match sess.email with
  | some e =>
    if e = "" then
      let g := ensureGuestUserId st
      (some g.1, g.2)
    else ((findUserByEmail st e).map User.id, st)
  | none =>
    let g := ensureGuestUserId st
    (some g.1, g.2)

/-- `prisma.pathway.findUnique({ where: { chatId } })`. -/
def findPathwayByChat (st : DBState) (cid : Nat) : Option Pathway :=
  st.pathways.find? (fun p => p.chatId = cid)

/-- The in-place update of an existing pathway row: optional fields left
`undefined` in the call are not overwritten, `planSpec` always is. -/
def pathwayUpdateRow (p : SavePlanParams) (pw : Pathway) : Pathway :=
  { pw with
      title := match p.title with
        | some t => some t
        | none => pw.title,
      status := match p.status with
        | some s => s
        | none => pw.status,
      planSpec := p.plan }

/-- The freshly created pathway row (status defaulting to `DRAFT`); the
resolved caller id equals the chat's owner id here, the ownership guard
having passed. -/
def pathwayCreateRow (p : SavePlanParams) (ownerId pid : Nat) : Pathway :=
  { id := pid,
    userId := ownerId,
    chatId := p.chatId,
    title := p.title,
    status := p.status.getD PathwayStatus.DRAFT,
    planSpec := p.plan }

/-- `savePlanAsPathway`: resolve the caller inline, check chat ownership
(returning a `{ ok: false }` value on failure), then update the existing
pathway for the chat in place (absent optional fields left untouched) or
create a new one with status defaulting to `DRAFT`. -/
def savePlanAsPathway (sess : Session) (st : DBState) (p : SavePlanParams) :
    (Res PathwayResult) × DBState :=
  let resolved := pathwayResolveUser sess st
  let userIdOpt := resolved.1
  let st1 := resolved.2
  match findChat st1 p.chatId with
  | none => (Res.notOk ownErrMsg, st1)
  | some chat =>
    if userIdOpt ≠ some chat.userId then (Res.notOk ownErrMsg, st1)
    else
      match findPathwayByChat st1 p.chatId with
      | some existing =>
        (Res.ok ⟨existing.id, false⟩,
         { st1 with
             pathways := st1.pathways.map (fun pw =>
               if pw.id = existing.id then pathwayUpdateRow p pw else pw) })
      | none =>
        (Res.ok ⟨st1.nextId, true⟩,
         { st1 with
             pathways := st1.pathways ++ [pathwayCreateRow p chat.userId st1.nextId],
             nextId := st1.nextId + 1 })

/-- Overwrite the `deletedAt` marker of one chat (used to state that the
guarded operations ignore soft deletion). -/
def setChatDeleted (st : DBState) (cid : Nat) (d : Option Nat) : DBState :=
  mapChat st cid (fun c => { c with deletedAt := d })

/-! ## Spec-level predicates (worded from the specification's shape descriptions) -/

/-- Spec wording: an element of `subtopics` matches `\x7btype:"SUBTOPIC", name:string\x7d`. -/
def SubtopicShaped (s : Json) : Prop :=
  jsGet s (cs "type") = some (Json.str (cs "SUBTOPIC")) ∧
  ∃ n, jsGet s (cs "name") = some (Json.str n)

/-- Spec wording: a roadmap element matches
`\x7btype:"TOPIC", name:string, subtopics:[...]\x7d` with every subtopic shaped. -/
def TopicShaped (t : Json) : Prop :=
  jsGet t (cs "type") = some (Json.str (cs "TOPIC")) ∧
  (∃ n, jsGet t (cs "name") = some (Json.str n)) ∧
  ∃ ss, jsGet t (cs "subtopics") = some (Json.arr ss) ∧ ∀ s ∈ ss, SubtopicShaped s

/-- The rational value denoted by a JSON number `num m s`. -/
def jsNumVal (m : ℤ) (s : ℕ) : ℚ := (m : ℚ) / (10 : ℚ) ^ s

/-- Spec wording: a kept MCQ has a string `question`, an `options` array of
exactly 4 entries, and a `correctIndex` whose value is an integer in `[0,4)`. -/
def McqValidSpec (q : Json) : Prop :=
  (∃ s, jsGet q (cs "question") = some (Json.str s)) ∧
  (∃ opts, jsGet q (cs "options") = some (Json.arr opts) ∧ opts.length = 4) ∧
  (∃ m s, jsGet q (cs "correctIndex") = some (Json.num m s) ∧
    ∃ i : ℤ, jsNumVal m s = (i : ℚ) ∧ 0 ≤ i ∧ i < 4)

/-- Spec wording: a kept short-answer item has a string `prompt`. -/
def TextValidSpec (t : Json) : Prop :=
  ∃ s, jsGet t (cs "prompt") = some (Json.str s)

/-! ## Concrete scenario used by witnesses and counterexamples -/

/-- The stored guest user row. -/
def guestUserW : User := ⟨1, some guestEmail, some "Guest", 0⟩

/-- A user row with an email, distinct from the guest. -/
def aliceUserW : User := ⟨5, some "alice@example.com", some "Alice", 2⟩

/-- A chat owned by the guest user, with ui state and an audit trail. -/
def chatW : Chat :=
  { id := 2, userId := 1, title := none, userSubjectId := none,
    meta :=
      { messages := some [⟨"m0", MsgType.ai, "welcome", 0⟩],
        roadmap := none,
        ui := some [("sidebar", Json.bool true)],
        events := some [⟨"createChat", 0, none⟩] },
    startedAt := 0, updatedAt := 0, deletedAt := none }

/-- A chat owned by a different user (id 9). -/
def foreignChatW : Chat :=
  { id := 4, userId := 9, title := some "other", userSubjectId := none,
    meta := emptyMeta, startedAt := 0, updatedAt := 0, deletedAt := none }

/-- Base store: guest + alice, one guest-owned chat, one foreign chat, no pathways. -/
def stW : DBState := ⟨[guestUserW, aliceUserW], [chatW, foreignChatW], [], 10⟩

/-- An anonymous session (no email, no name): resolves to the guest user. -/
def sessW : Session := ⟨none, none⟩

/-- A user-role message used in witness turns. -/
def userMsgW : ChatMessage := ⟨"m1", MsgType.user, "hello there", 100⟩

/-- An ai-role message used in witness turns. -/
def aiMsgW : ChatMessage := ⟨"m2", MsgType.ai, "hi!", 101⟩

/-- A generate-practice input with default counts. -/
def genInputW : GeneratePracticeInput := ⟨cs "Trees", cs "AVL", Json.null, none, none⟩

/-- A concrete practice-generation response: one valid MCQ, one malformed MCQ
(missing options), one short-answer item. -/
def rawResponseW : List Char :=
  cs "\x7b\"mcqs\":[\x7b\"question\":\"q1\",\"options\":[\"a\",\"b\",\"c\",\"d\"],\"correctIndex\":1\x7d,\x7b\"question\":\"bad\"\x7d],\"texts\":[\x7b\"prompt\":\"p\"\x7d]\x7d"

/-- The parsed form of `rawResponseW` (defined through the parser itself). -/
def parsedResponseW : Json := (parseJson (jsTrim rawResponseW)).getD Json.null

/-- Append-turn parameters used by the C3 witness (replacing the roadmap and
patching the ui). -/
def appendParamsW : AppendTurnParams :=
  ⟨2, userMsgW, aiMsgW, some (Json.arr []), some [("panel", Json.str (cs "open"))]⟩

/-- Snapshot parameters used by the C4 witness and counterexample. -/
def saveParamsW : SaveSnapshotParams :=
  ⟨2, [userMsgW, aiMsgW], some (Json.arr []), some "first question"⟩

/-- Append-turn parameters aimed at a chat the caller does not own (C5). -/
def appendParamsBad : AppendTurnParams := ⟨4, userMsgW, aiMsgW, none, none⟩

/-- Snapshot parameters aimed at a chat the caller does not own (C5). -/
def saveParamsBad : SaveSnapshotParams := ⟨4, [], none, none⟩

/-- Pathway parameters aimed at a chat the caller does not own (C5). -/
def planParamsBad : SavePlanParams := ⟨4, Json.arr [], none, none⟩

/-- A session carrying an email but no display name (C6). -/
def sessEmailOnly : Session := ⟨some "alice@example.com", none⟩

/-- First pathway save for the witness chat (C7). -/
def planParamsW1 : SavePlanParams := ⟨2, Json.arr [], some "plan v1", none⟩

/-- Second pathway save for the same chat with a different plan (C7). -/
def planParamsW2 : SavePlanParams :=
  ⟨2, Json.arr [Json.obj [(cs "type", Json.str (cs "TOPIC"))]], none,
   some PathwayStatus.ACTIVE⟩

/-! ## Helper lemmas and claim theorems -/

theorem isStrEq_iff (o : Option Json) (v : List Char) :
    isStrEq o v = true ↔ o = some (Json.str v) := by
  cases o with
  | none => simp [isStrEq]
  | some j => cases j <;> simp [isStrEq]

theorem isStr_iff (o : Option Json) :
    isStr o = true ↔ ∃ s, o = some (Json.str s) := by
  cases o with
  | none => simp [isStr]
  | some j => cases j <;> simp [isStr]

theorem subtopicOk_iff (s : Json) : subtopicOk s = true ↔ SubtopicShaped s := by
  simp [subtopicOk, SubtopicShaped, Bool.and_eq_true, isStrEq_iff, isStr_iff]

theorem topicOk_iff (t : Json) : topicOk t = true ↔ TopicShaped t := by
  simp only [topicOk, TopicShaped, Bool.and_eq_true, isStrEq_iff, isStr_iff]
  rcases hss : jsGet t (cs "subtopics") with _ | j
  · simp
  · cases j <;> simp
    rename_i ss
    rw [and_assoc]
    apply and_congr_right
    intro _
    apply and_congr_right
    intro _
    simp [List.all_eq_true, subtopicOk_iff]

theorem tryExtract_eq_some_iff (text : List Char) (elems : List Json) :
    tryExtractRoadmapFromText text = some elems ↔
      ∃ f l, idxOf? '[' text = some f ∧ lastIdxOf? ']' text = some l ∧ f < l ∧
        parseJson (jsTrim (jsSlice text f (l + 1))) = some (Json.arr elems) ∧
        ∀ t ∈ elems, TopicShaped t := by
  unfold tryExtractRoadmapFromText
  rcases hf : idxOf? '[' text with _ | f
  · simp
  · rcases hl : lastIdxOf? ']' text with _ | l
    · simp
    · dsimp only
      simp only [Option.some.injEq]
      constructor
      · intro h
        by_cases hle : l ≤ f
        · rw [if_pos hle] at h; cases h
        · rw [if_neg hle] at h
          rcases hp : parseJson (jsTrim (jsSlice text f (l + 1))) with _ | j <;> rw [hp] at h
          · cases h
          · cases j <;> try (cases h)
            rename_i es
            dsimp only at h
            by_cases hall : es.all topicOk
            · rw [if_pos hall] at h
              cases h
              exact ⟨f, l, rfl, rfl, by omega, hp, fun t ht =>
                (topicOk_iff t).mp (List.all_eq_true.mp hall t ht)⟩
            · rw [if_neg hall] at h; cases h
      · rintro ⟨f', l', hf', hl', hlt, hp', hsh⟩
        cases hf'; cases hl'
        rw [if_neg (by omega), hp']
        dsimp only
        rw [if_pos (List.all_eq_true.mpr fun t ht => (topicOk_iff t).mpr (hsh t ht))]

/-- C1: roadmap extraction succeeds exactly when the text has a first `[`
strictly before its last `]`, the bracketed substring (trimmed) parses as a
JSON array, and every element is Topic-shaped (so one malformed element
rejects the whole roadmap); missing or mis-ordered brackets give the
no-roadmap signal; and the empty array is accepted as a valid empty roadmap
distinct from the no-roadmap signal. -/
theorem spec2proof_C1 :
    (∀ text elems, tryExtractRoadmapFromText text = some elems ↔
      ∃ f l, idxOf? '[' text = some f ∧ lastIdxOf? ']' text = some l ∧ f < l ∧
        parseJson (jsTrim (jsSlice text f (l + 1))) = some (Json.arr elems) ∧
        ∀ t ∈ elems, TopicShaped t) ∧
    (∀ text, (idxOf? '[' text = none ∨ lastIdxOf? ']' text = none ∨
        (∃ f l, idxOf? '[' text = some f ∧ lastIdxOf? ']' text = some l ∧ l ≤ f)) →
      tryExtractRoadmapFromText text = none) ∧
    (∀ text elems, tryExtractRoadmapFromText text = some elems →
      ∀ t ∈ elems, TopicShaped t) ∧
    tryExtractRoadmapFromText (cs "[]") = some [] ∧
    tryExtractRoadmapFromText (cs "[]") ≠ none := by
  refine ⟨tryExtract_eq_some_iff, ?_, ?_, rfl,
    fun h => Option.noConfusion ((rfl : tryExtractRoadmapFromText (cs "[]") = some []).symm.trans h)⟩
  · intro text h
    rcases hres : tryExtractRoadmapFromText text with _ | elems
    · rfl
    · exfalso
      obtain ⟨f, l, hf, hl, hlt, _, _⟩ := (tryExtract_eq_some_iff text elems).mp hres
      rcases h with h | h | ⟨f', l', hf', hl', hle⟩
      · rw [h] at hf; cases hf
      · rw [h] at hl; cases hl
      · rw [hf] at hf'; rw [hl] at hl'
        cases hf'; cases hl'
        omega
  · intro text elems hres
    exact ((tryExtract_eq_some_iff text elems).mp hres).choose_spec.choose_spec.2.2.2.2

/-- Witness for C1 at concrete inputs: a bracket-free text yields the
no-roadmap signal, and a text whose span is `[]` yields the empty roadmap. -/
theorem spec2proof_C1_witness :
    tryExtractRoadmapFromText (cs "no brackets here") = none ∧
    tryExtractRoadmapFromText (cs "a[]b") = some [] :=
  ⟨spec2proof_C1.2.1 (cs "no brackets here") (Or.inl rfl),
   (spec2proof_C1.1 (cs "a[]b") []).mpr ⟨1, 2, rfl, rfl, by omega, by rfl, by simp⟩⟩

/-- C9 (amended): when extraction succeeds, the displayed text is the trimmed
prefix and suffix joined by a blank line when that is non-empty and a fixed
placeholder sentence otherwise; when extraction fails the displayed text is
the original text unchanged (not trimmed). -/
theorem spec2proof_C9 :
    ∀ content,
      (tryExtractRoadmapFromText content = none → displayedAiContent content = content) ∧
      (∀ elems f l, tryExtractRoadmapFromText content = some elems →
        idxOf? '[' content = some f → lastIdxOf? ']' content = some l →
        displayedAiContent content =
          (if (jsTrim (joinNonEmpty
                [jsTrim (jsSlice content 0 f), jsTrim (content.drop (l + 1))])).isEmpty
           then roadmapPlaceholder
           else jsTrim (joinNonEmpty
                [jsTrim (jsSlice content 0 f), jsTrim (content.drop (l + 1))]))) := by
  intro content
  constructor
  · intro h
    unfold displayedAiContent
    rw [h]
  · intro elems f l hres hf hl
    obtain ⟨f', l', hf', hl', hlt, _, _⟩ := (tryExtract_eq_some_iff content elems).mp hres
    rw [hf] at hf'; rw [hl] at hl'
    cases hf'; cases hl'
    unfold displayedAiContent
    rw [hres, hf, hl]
    dsimp only
    rw [if_pos hlt]
    by_cases hclean :
        (jsTrim (joinNonEmpty [jsTrim (jsSlice content 0 f), jsTrim (content.drop (l + 1))])).isEmpty
    · rw [if_pos hclean, if_neg (by simp [hclean])]
    · rw [if_neg hclean, if_pos (by simpa using hclean)]

/-- Witness for C9 at concrete inputs: a bracket-free text is displayed
unchanged; a text with an embedded empty roadmap is displayed per the
join-or-placeholder rule. -/
theorem spec2proof_C9_witness :
    displayedAiContent (cs "nope") = cs "nope" ∧
    displayedAiContent (cs "x []") =
      (if (jsTrim (joinNonEmpty
            [jsTrim (jsSlice (cs "x []") 0 2), jsTrim ((cs "x []").drop 4)])).isEmpty
       then roadmapPlaceholder
       else jsTrim (joinNonEmpty
            [jsTrim (jsSlice (cs "x []") 0 2), jsTrim ((cs "x []").drop 4)])) :=
  ⟨(spec2proof_C9 (cs "nope")).1 rfl,
   (spec2proof_C9 (cs "x []")).2 [] 2 3 rfl rfl rfl⟩

/-- C9 counterexample: `" hi "` has no bracket span, yet the displayed text is
the original `" hi "`, not the trimmed `"hi"`; and for `"[]"` (a successful
extraction with empty surrounding prose) the displayed text is the placeholder
sentence, not the empty join of the non-empty parts. -/
theorem spec2proof_C9_counterexample :
    tryExtractRoadmapFromText (cs " hi ") = none ∧
    displayedAiContent (cs " hi ") ≠ jsTrim (cs " hi ") ∧
    displayedAiContent (cs "[]") = roadmapPlaceholder ∧
    joinNonEmpty [jsTrim (jsSlice (cs "[]") 0 0), jsTrim ((cs "[]").drop 2)] = [] ∧
    roadmapPlaceholder ≠ [] := by
  refine ⟨rfl, ?_, rfl, rfl, ?_⟩ <;> decide

/-- C2 (amended): `generatePractice` fails open with empty results when the
credential is missing or when a received response is not valid JSON, but a
failure of the outbound call itself is not caught and propagates. -/
theorem spec2proof_C2 :
    ∀ (env : GenEnv) (inp : GeneratePracticeInput),
      (env.apiKey = none → generatePractice env inp = Except.ok ⟨[], []⟩) ∧
      (∀ k raw, env.apiKey = some k → env.net = Except.ok raw →
        parseJson (jsTrim raw) = none → generatePractice env inp = Except.ok ⟨[], []⟩) ∧
      (∀ k e, env.apiKey = some k → env.net = Except.error e →
        generatePractice env inp = Except.error e) := by
  intro env inp
  refine ⟨?_, ?_, ?_⟩
  · intro h
    unfold generatePractice
    rw [h]
  · intro k raw hk hn hp
    unfold generatePractice
    rw [hk]
    dsimp only
    rw [hn]
    dsimp only
    rw [hp]
  · intro k e hk hn
    unfold generatePractice
    rw [hk]
    dsimp only
    rw [hn]

/-- Witness for C2 at concrete inputs: missing key and non-JSON response give
empty results, a failed outbound call propagates as an error. -/
theorem spec2proof_C2_witness :
    generatePractice ⟨none, Except.ok []⟩ genInputW = Except.ok ⟨[], []⟩ ∧
    generatePractice ⟨some "key", Except.ok (cs "oops")⟩ genInputW = Except.ok ⟨[], []⟩ ∧
    generatePractice ⟨some "key", Except.error "boom"⟩ genInputW = Except.error "boom" :=
  ⟨(spec2proof_C2 ⟨none, Except.ok []⟩ genInputW).1 rfl,
   (spec2proof_C2 ⟨some "key", Except.ok (cs "oops")⟩ genInputW).2.1 "key" (cs "oops") rfl rfl
     (by rfl),
   (spec2proof_C2 ⟨some "key", Except.error "boom"⟩ genInputW).2.2 "key" "boom" rfl rfl⟩

/-- C2 counterexample: with a configured key and a failing outbound call,
`generatePractice` propagates the failure instead of returning
`\x7bmcqs: [], texts: []\x7d` — the network call is outside the `try`. -/
theorem spec2proof_C2_counterexample :
    generatePractice ⟨some "key", Except.error "network failure"⟩ genInputW =
      Except.error "network failure" := rfl

theorem scaledInt_check_iff (m : ℤ) (s : ℕ) :
    (m % (10 : ℤ) ^ s = 0 ∧ 0 ≤ m ∧ m < 4 * 10 ^ s) ↔
      (∃ i : ℤ, jsNumVal m s = (i : ℚ) ∧ 0 ≤ i ∧ i < 4) := by
  have hpow : (0 : ℤ) < 10 ^ s := pow_pos (by norm_num) s
  have hpowQ : ((10 : ℚ) ^ s) = (((10 : ℤ) ^ s : ℤ) : ℚ) := by push_cast; ring
  have hpowQ0 : ((10 : ℚ) ^ s) ≠ 0 := by positivity
  constructor
  · rintro ⟨hmod, h0, h4⟩
    obtain ⟨i, rfl⟩ : (10 : ℤ) ^ s ∣ m := Int.dvd_of_emod_eq_zero hmod
    refine ⟨i, ?_, ?_, ?_⟩
    · rw [jsNumVal, hpowQ]
      push_cast
      field_simp
    · nlinarith
    · nlinarith
  · rintro ⟨i, hval, h0, h4⟩
    rw [jsNumVal, hpowQ, div_eq_iff (by rw [← hpowQ]; exact hpowQ0)] at hval
    have hm : m = i * 10 ^ s := by exact_mod_cast hval
    subst hm
    refine ⟨Int.mul_emod_left i _, ?_, ?_⟩
    · exact mul_nonneg h0 (le_of_lt hpow)
    · exact mul_lt_mul_of_pos_right h4 hpow

theorem mcqFilterOk_iff (q : Json) : mcqFilterOk q = true ↔ McqValidSpec q := by
  simp only [mcqFilterOk, McqValidSpec, Bool.and_eq_true, isStr_iff]
  rcases ho : jsGet q (cs "options") with _ | jo
  · simp
  · cases jo <;> simp
    rename_i opts
    rcases hc : jsGet q (cs "correctIndex") with _ | jc
    · simp
    · cases jc <;> simp
      rename_i m s
      simp [Bool.and_eq_true, decide_eq_true_eq, and_assoc, ← scaledInt_check_iff]

theorem textFilterOk_iff (t : Json) : textFilterOk t = true ↔ TextValidSpec t := by
  simp only [textFilterOk, TextValidSpec, isStr_iff]

/-- C8: a candidate MCQ is kept iff its question is a string, its options an
array of exactly 4 entries and its correctIndex an integer in `[0,4)`; a
short-answer candidate is kept iff its prompt is a string; invalid candidates
are excluded individually even alongside valid ones; and the kept lists are
truncated to the requested counts, defaulting to 3 and 2 and clamped to
`[1,6]` and `[1,4]`. -/
theorem spec2proof_C8 :
    (∀ (k : String) (raw : List Char) (inp : GeneratePracticeInput) (parsed : Json),
      parseJson (jsTrim raw) = some parsed →
      generatePractice ⟨some k, Except.ok raw⟩ inp =
        Except.ok
          ⟨((arrayProp parsed (cs "mcqs")).filter mcqFilterOk).take
              (clampMcqCount inp.numMcqs).toNat,
           ((arrayProp parsed (cs "texts")).filter textFilterOk).take
              (clampTextCount inp.numTexts).toNat⟩) ∧
    (∀ q, mcqFilterOk q = true ↔ McqValidSpec q) ∧
    (∀ t, textFilterOk t = true ↔ TextValidSpec t) ∧
    (∀ (q : Json) (l : List Json), q ∈ l.filter mcqFilterOk ↔ q ∈ l ∧ McqValidSpec q) ∧
    (∀ (t : Json) (l : List Json), t ∈ l.filter textFilterOk ↔ t ∈ l ∧ TextValidSpec t) ∧
    clampMcqCount none = 3 ∧ clampTextCount none = 2 ∧
    (∀ n : ℤ, 1 ≤ clampMcqCount (some n) ∧ clampMcqCount (some n) ≤ 6 ∧
      (1 ≤ n → n ≤ 6 → clampMcqCount (some n) = n)) ∧
    (∀ n : ℤ, 1 ≤ clampTextCount (some n) ∧ clampTextCount (some n) ≤ 4 ∧
      (1 ≤ n → n ≤ 4 → clampTextCount (some n) = n)) := by
  refine ⟨?_, mcqFilterOk_iff, textFilterOk_iff, ?_, ?_, rfl, rfl, ?_, ?_⟩
  · intro k raw inp parsed hp
    unfold generatePractice
    dsimp only
    rw [hp]
  · intro q l
    rw [List.mem_filter, mcqFilterOk_iff]
  · intro t l
    rw [List.mem_filter, textFilterOk_iff]
  · intro n
    refine ⟨le_max_left _ _, max_le (by norm_num) ?_, fun h1 h2 => ?_⟩
    · simp
    · show max 1 (min ((some n).getD 3) 6) = n
      rw [Option.getD_some, min_eq_left h2, max_eq_right h1]
  · intro n
    refine ⟨le_max_left _ _, max_le (by norm_num) ?_, fun h1 h2 => ?_⟩
    · simp
    · show max 1 (min ((some n).getD 2) 4) = n
      rw [Option.getD_some, min_eq_left h2, max_eq_right h1]

/-- Witness for C8: on a concrete response with one valid and one invalid MCQ,
the valid one is kept, the invalid one dropped, the short-answer kept, and the
clamp evaluates as stated. -/
theorem spec2proof_C8_witness :
    generatePractice ⟨some "key", Except.ok rawResponseW⟩ genInputW =
      Except.ok
        ⟨((arrayProp parsedResponseW (cs "mcqs")).filter mcqFilterOk).take
            (clampMcqCount none).toNat,
         ((arrayProp parsedResponseW (cs "texts")).filter textFilterOk).take
            (clampTextCount none).toNat⟩ ∧
    ((arrayProp parsedResponseW (cs "mcqs")).filter mcqFilterOk).length = 1 ∧
    (arrayProp parsedResponseW (cs "mcqs")).length = 2 ∧
    clampMcqCount (some 2) = 2 :=
  ⟨spec2proof_C8.1 "key" rawResponseW genInputW parsedResponseW rfl,
   by decide, by decide, (spec2proof_C8.2.2.2.2.2.2.2.1 2).2.2 (by norm_num) (by norm_num)⟩

theorem find?_map_pres {α : Type} (g : α → α) (p : α → Bool) (l : List α)
    (h : ∀ x, p (g x) = p x) : (l.map g).find? p = (l.find? p).map g := by
  induction l with
  | nil => rfl
  | cons a t ih =>
    simp only [List.map_cons, List.find?]
    rw [h a]
    cases hpa : p a
    · exact ih
    · rfl

theorem findChat_mapChat (st : DBState) (cid cid' : Nat) (f : Chat → Chat)
    (hid : ∀ c, (f c).id = c.id) :
    findChat (mapChat st cid f) cid' =
      (findChat st cid').map (fun c => if c.id = cid then f c else c) := by
  unfold findChat mapChat
  exact find?_map_pres _ _ _ (fun c => by
    by_cases hc : c.id = cid
    · simp [hc, hid c]
    · simp [hc])

theorem ensureGuest_chats (st : DBState) :
    (ensureGuestUserId st).2.chats = st.chats ∧
    (ensureGuestUserId st).2.pathways = st.pathways := by
  unfold ensureGuestUserId createUser
  rcases hf : findUserByEmail st guestEmail with _ | g <;> exact ⟨rfl, rfl⟩

theorem resolveV1_state (sess : Session) (st : DBState) (uid : Nat) (st' : DBState)
    (h : resolveUserIdV1 sess st = Except.ok (uid, st')) :
    st'.chats = st.chats ∧ st'.pathways = st.pathways := by
  unfold resolveUserIdV1 at h
  rcases he : normEmail sess with _ | e <;> rw [he] at h <;> dsimp only at h
  · rcases hn : normName sess with _ | n <;> rw [hn] at h <;> dsimp only at h
    · have hp := Except.ok.inj h
      have h2 : (ensureGuestUserId st).2 = st' := congrArg Prod.snd hp
      rw [← h2]
      exact ensureGuest_chats st
    · rcases hf : findLatestUserByName n st.users with _ | u <;> rw [hf] at h <;>
        dsimp only at h
      · cases h
      · cases h
        exact ⟨rfl, rfl⟩
  · rcases hf : findUserByEmail st e with _ | u <;> rw [hf] at h <;> dsimp only at h
    · cases h
    · cases h
      exact ⟨rfl, rfl⟩

theorem whoami_state (sess : Session) (st : DBState) (uid : Nat) (st' : DBState)
    (h : whoami sess st = Except.ok (uid, st')) :
    st'.chats = st.chats ∧ st'.pathways = st.pathways := by
  unfold whoami at h
  by_cases hg : optStrTruthy sess.name
  · rw [if_pos hg] at h
    exact resolveV1_state sess st uid st' h
  · rw [if_neg hg] at h
    have hp := Except.ok.inj h
    have h2 : (ensureGuestUserId st).2 = st' := congrArg Prod.snd hp
    rw [← h2]
    exact ensureGuest_chats st

theorem assertOwnChat_ok_iff (st : DBState) (cid uid : Nat) :
    assertOwnChat st cid uid = Except.ok () ↔
      ∃ c, findChat st cid = some c ∧ c.userId = uid := by
  unfold assertOwnChat
  rcases hf : findChat st cid with _ | c
  · simp
  · by_cases hu : c.userId = uid
    · simp [hu]
    · simp [hu]

theorem assertOwnChat_error (st : DBState) (cid uid : Nat)
    (h : ∀ c, findChat st cid = some c → c.userId ≠ uid) :
    assertOwnChat st cid uid = Except.error ownErrMsg := by
  unfold assertOwnChat
  rcases hf : findChat st cid with _ | c
  · rfl
  · dsimp only
    rw [if_neg (h c hf)]

theorem lookupLastS_append (a b : List (String × Json)) (key : String) :
    lookupLastS (a ++ b) key =
      match lookupLastS b key with
      | some v => some v
      | none => lookupLastS a key := by
  induction a with
  | nil =>
    simp only [List.nil_append]
    cases lookupLastS b key <;> rfl
  | cons kv t ih =>
    rcases kv with ⟨k, v⟩
    simp only [List.cons_append, lookupLastS]
    rw [List.append_eq, ih]
    rcases lookupLastS b key with _ | w <;> rcases lookupLastS t key with _ | w2 <;> rfl

theorem lookupLastS_map_val (a : List (String × Json)) (g : String → Json → Json)
    (key : String) :
    lookupLastS (a.map (fun kv => (kv.1, g kv.1 kv.2))) key =
      (lookupLastS a key).map (g key) := by
  induction a with
  | nil => rfl
  | cons kv t ih =>
    rcases kv with ⟨k, v⟩
    simp only [List.map_cons, lookupLastS, ih]
    cases lookupLastS t key with
    | none =>
      dsimp only
      by_cases hk : k = key
      · subst hk; simp
      · simp [hk]
    | some w => rfl

theorem lookupLastS_filter_of_none (a b : List (String × Json)) (key : String)
    (h : lookupLastS a key = none) :
    lookupLastS (b.filter (fun kv => (lookupLastS a kv.1).isNone)) key =
      lookupLastS b key := by
  induction b with
  | nil => rfl
  | cons kv t ih =>
    rcases kv with ⟨k, v⟩
    by_cases hk : (lookupLastS a k).isNone
    · rw [List.filter_cons_of_pos (by simpa using hk)]
      simp only [lookupLastS, ih]
    · rw [List.filter_cons_of_neg (by simpa using hk)]
      have hkne : k ≠ key := by
        intro hkk
        subst hkk
        rw [h] at hk
        simp at hk
      simp only [lookupLastS, ih]
      cases lookupLastS t key
      · simp [hkne]
      · rfl

theorem lookupLastS_filter_of_some (a b : List (String × Json)) (key : String)
    (w : Json) (h : lookupLastS a key = some w) :
    lookupLastS (b.filter (fun kv => (lookupLastS a kv.1).isNone)) key = none := by
  induction b with
  | nil => rfl
  | cons kv t ih =>
    rcases kv with ⟨k, v⟩
    by_cases hk : (lookupLastS a k).isNone
    · have hkne : k ≠ key := by
        intro hkk
        subst hkk
        rw [h] at hk
        simp at hk
      rw [List.filter_cons_of_pos (by simpa using hk)]
      simp only [lookupLastS, ih]
      simp [hkne]
    · rw [List.filter_cons_of_neg (by simpa using hk)]
      exact ih

theorem lookupLastS_mergeObj (a b : List (String × Json)) (key : String) :
    lookupLastS (mergeObj a b) key =
      match lookupLastS b key with
      | some v => some v
      | none => lookupLastS a key := by
  unfold mergeObj
  rw [lookupLastS_append]
  rcases ha : lookupLastS a key with _ | v
  all_goals
    have hm := lookupLastS_map_val a (fun k v => (lookupLastS b k).getD v) key
  · rw [lookupLastS_filter_of_none a b key ha, hm, ha]
    cases lookupLastS b key <;> rfl
  · rw [lookupLastS_filter_of_some a b key v ha]
    dsimp only
    rw [hm, ha]
    cases lookupLastS b key <;> rfl

theorem findChat_id (st : DBState) (cid : Nat) (c : Chat)
    (h : findChat st cid = some c) : c.id = cid := by
  unfold findChat at h
  simpa using List.find?_some h

/-- C3: for a chat owned by the resolved caller, `appendTurn` appends exactly
the user and ai message (in that order) at the end of the message sequence,
replaces the roadmap only when one is provided, shallow-merges the ui patch
into the existing ui map only when one is provided, and appends exactly one
audit event. -/
theorem spec2proof_C3 :
    ∀ (sess : Session) (now : Nat) (st : DBState) (p : AppendTurnParams)
      (uid : Nat) (st1 : DBState) (c : Chat),
      whoami sess st = Except.ok (uid, st1) →
      findChat st1 p.chatId = some c →
      c.userId = uid →
      ∃ st2, appendTurn sess now st p = Except.ok (Res.ok (), st2) ∧
        ∃ c2, findChat st2 p.chatId = some c2 ∧
          c2.meta.messages = some ((c.meta.messages).getD [] ++ [p.userMsg, p.aiMsg]) ∧
          (∀ r, p.roadmap = some r → c2.meta.roadmap = some r) ∧
          (p.roadmap = none → c2.meta.roadmap = c.meta.roadmap) ∧
          (∀ patch, p.uiPatch = some patch →
            c2.meta.ui = some (mergeObj ((c.meta.ui).getD []) patch) ∧
            ∀ key, lookupLastS (mergeObj ((c.meta.ui).getD []) patch) key =
              match lookupLastS patch key with
              | some v => some v
              | none => lookupLastS ((c.meta.ui).getD []) key) ∧
          (p.uiPatch = none → c2.meta.ui = c.meta.ui) ∧
          c2.meta.events = some ((c.meta.events).getD [] ++ [appendTurnEvent now p.userMsg]) := by
  intro sess now st p uid st1 c hw hfc hcu
  have hassert : assertOwnChat st1 p.chatId uid = Except.ok () :=
    (assertOwnChat_ok_iff _ _ _).mpr ⟨c, hfc, hcu⟩
  have hid : c.id = p.chatId := findChat_id st1 p.chatId c hfc
  unfold appendTurn
  rw [hw]
  dsimp only
  rw [hassert]
  dsimp only
  rw [hfc]
  dsimp only
  refine ⟨_, rfl, ?_⟩
  rw [findChat_mapChat st1 p.chatId p.chatId]
  swap
  · exact fun x => rfl
  rw [hfc]
  rw [Option.map_some']
  rw [if_pos hid]
  refine ⟨_, rfl, rfl, ?_, ?_, ?_, ?_, rfl⟩
  · intro r hr
    rw [hr]
  · intro hr
    rw [hr]
    rfl
  · intro patch hp
    rw [hp]
    exact ⟨rfl, fun key => lookupLastS_mergeObj _ patch key⟩
  · intro hp
    rw [hp]
    rfl

/-- Witness for C3 at a concrete guest-owned chat, with a roadmap replacement
and a ui patch. -/
theorem spec2proof_C3_witness :
    ∃ st2, appendTurn sessW 7 stW appendParamsW = Except.ok (Res.ok (), st2) ∧
      ∃ c2, findChat st2 appendParamsW.chatId = some c2 ∧
        c2.meta.messages =
          some ((chatW.meta.messages).getD [] ++ [appendParamsW.userMsg, appendParamsW.aiMsg]) ∧
        (∀ r, appendParamsW.roadmap = some r → c2.meta.roadmap = some r) ∧
        (appendParamsW.roadmap = none → c2.meta.roadmap = chatW.meta.roadmap) ∧
        (∀ patch, appendParamsW.uiPatch = some patch →
          c2.meta.ui = some (mergeObj ((chatW.meta.ui).getD []) patch) ∧
          ∀ key, lookupLastS (mergeObj ((chatW.meta.ui).getD []) patch) key =
            match lookupLastS patch key with
            | some v => some v
            | none => lookupLastS ((chatW.meta.ui).getD []) key) ∧
        (appendParamsW.uiPatch = none → c2.meta.ui = chatW.meta.ui) ∧
        c2.meta.events =
          some ((chatW.meta.events).getD [] ++ [appendTurnEvent 7 appendParamsW.userMsg]) :=
  spec2proof_C3 sessW 7 stW appendParamsW 1 stW chatW rfl rfl rfl

theorem findChat_eq_of_chats (st st' : DBState) (h : st'.chats = st.chats) (cid : Nat) :
    findChat st' cid = findChat st cid := by
  unfold findChat
  rw [h]

theorem getSnap_of_owner (sess : Session) (st2 : DBState) (cid : Nat)
    (uid2 : Nat) (st3 : DBState) (c2 : Chat)
    (hw : whoami sess st2 = Except.ok (uid2, st3))
    (hf : findChat st2 cid = some c2)
    (hcu : c2.userId = uid2) :
    getChatSnapshot sess st2 cid =
      Except.ok (Res.ok ⟨c2.id, c2.title, c2.meta.messages.getD [],
        c2.meta.roadmap.getD Json.null, c2.updatedAt, c2.startedAt⟩, st3) := by
  have hch := (whoami_state sess st2 uid2 st3 hw).1
  have hf3 : findChat st3 cid = some c2 := by
    rw [findChat_eq_of_chats st2 st3 hch, hf]
  have hassert : assertOwnChat st3 cid uid2 = Except.ok () :=
    (assertOwnChat_ok_iff _ _ _).mpr ⟨c2, hf3, hcu⟩
  unfold getChatSnapshot
  rw [hw]
  dsimp only
  rw [hassert]
  dsimp only
  rw [hf3]

/-- C4 (amended): `saveChatSnapshot` replaces the chat's entire meta blob with
`{ messages, roadmap }` — any other meta field (ui, events) is dropped, not
preserved — sets the title only when the fallback is truthy and no truthy
title exists (never overwriting an existing title), and an immediate
`getChatSnapshot` returns exactly the messages and roadmap passed (an omitted
roadmap reading back as null). -/
theorem spec2proof_C4 :
    ∀ (sess : Session) (now : Nat) (st : DBState) (p : SaveSnapshotParams)
      (uid : Nat) (st1 : DBState) (c : Chat),
      resolveUserIdV1 sess st = Except.ok (uid, st1) →
      findChat st1 p.chatId = some c →
      c.userId = uid →
      saveChatSnapshot sess now st p =
        Except.ok (Res.ok (), mapChat st1 p.chatId (saveSnapshotUpdate p now)) ∧
      ∃ c2, findChat (mapChat st1 p.chatId (saveSnapshotUpdate p now)) p.chatId = some c2 ∧
        c2 = saveSnapshotUpdate p now c ∧
        c2.meta = ⟨some p.messages, some (p.roadmap.getD Json.null), none, none⟩ ∧
        c2.title = (if optStrTruthy p.titleFallback && ¬optStrTruthy c.title
                    then p.titleFallback else c.title) ∧
        (optStrTruthy c.title = true → c2.title = c.title) ∧
        (∀ uid2 st3,
          whoami sess (mapChat st1 p.chatId (saveSnapshotUpdate p now)) =
            Except.ok (uid2, st3) →
          c2.userId = uid2 →
          getChatSnapshot sess (mapChat st1 p.chatId (saveSnapshotUpdate p now)) p.chatId =
            Except.ok (Res.ok ⟨c2.id, c2.title, p.messages, p.roadmap.getD Json.null,
              c2.updatedAt, c2.startedAt⟩, st3)) := by
  intro sess now st p uid st1 c hres hfc hcu
  have hid : c.id = p.chatId := findChat_id st1 p.chatId c hfc
  have hfind2 : findChat (mapChat st1 p.chatId (saveSnapshotUpdate p now)) p.chatId =
      some (saveSnapshotUpdate p now c) := by
    rw [findChat_mapChat st1 p.chatId p.chatId (saveSnapshotUpdate p now) (fun x => rfl),
      hfc, Option.map_some', if_pos hid]
  constructor
  · unfold saveChatSnapshot
    rw [hres]
    dsimp only
    rw [hfc]
    dsimp only
    rw [if_neg (by simp [hcu])]
  · refine ⟨saveSnapshotUpdate p now c, hfind2, rfl, rfl, rfl, ?_, ?_⟩
    · intro ht
      show (if optStrTruthy p.titleFallback && ¬optStrTruthy c.title
            then p.titleFallback else c.title) = c.title
      rw [ht]
      simp
    · intro uid2 st3 hw2 hcu2
      exact getSnap_of_owner sess _ p.chatId uid2 st3 (saveSnapshotUpdate p now c)
        hw2 hfind2 hcu2

/-- Witness for C4 at a concrete guest-owned chat and snapshot. -/
theorem spec2proof_C4_witness :
    saveChatSnapshot sessW 9 stW saveParamsW =
      Except.ok (Res.ok (), mapChat stW 2 (saveSnapshotUpdate saveParamsW 9)) ∧
    getChatSnapshot sessW (mapChat stW 2 (saveSnapshotUpdate saveParamsW 9)) 2 =
      Except.ok (Res.ok ⟨2, some "first question", saveParamsW.messages,
        saveParamsW.roadmap.getD Json.null, 9, 0⟩,
        mapChat stW 2 (saveSnapshotUpdate saveParamsW 9)) := by
  obtain ⟨hsave, c2, hfind, hc2, hmeta, htitle, hpres, hrt⟩ :=
    spec2proof_C4 sessW 9 stW saveParamsW 1 stW chatW rfl rfl rfl
  subst hc2
  exact ⟨hsave, hrt 1 (mapChat stW 2 (saveSnapshotUpdate saveParamsW 9)) rfl rfl⟩

/-- C4 counterexample: the guest-owned chat starts with non-empty `meta.ui` and
`meta.events`; after `saveChatSnapshot` both are gone — the other meta fields
are not left unchanged, the whole blob is replaced. -/
theorem spec2proof_C4_counterexample :
    saveChatSnapshot sessW 9 stW saveParamsW =
      Except.ok (Res.ok (), mapChat stW 2 (saveSnapshotUpdate saveParamsW 9)) ∧
    ∃ c0 c2, findChat stW 2 = some c0 ∧
      findChat (mapChat stW 2 (saveSnapshotUpdate saveParamsW 9)) 2 = some c2 ∧
      c0.meta.ui ≠ none ∧ c0.meta.events ≠ none ∧
      c2.meta.ui = none ∧ c2.meta.events = none := by
  refine ⟨rfl, chatW, saveSnapshotUpdate saveParamsW 9 chatW, rfl, rfl, ?_, ?_, rfl, rfl⟩
  · simp [chatW]
  · simp [chatW]

/-- C5 (amended): a missing chat and a chat owned by someone else produce the
same not-found-or-not-owned outcome, but only `saveChatSnapshot` and
`savePlanAsPathway` return it as a result value; `appendTurn`,
`getChatSnapshot`, `renameChat` and `deleteChat` let the ownership-assertion
error propagate uncaught (they raise across the boundary). -/
theorem spec2proof_C5 :
    ∀ (sess : Session) (now : Nat) (st : DBState) (cid : Nat),
      (∀ uid st1, whoami sess st = Except.ok (uid, st1) →
        (∀ c, findChat st1 cid = some c → c.userId ≠ uid) →
        (∀ p : AppendTurnParams, p.chatId = cid →
          appendTurn sess now st p = Except.error ownErrMsg) ∧
        getChatSnapshot sess st cid = Except.error ownErrMsg ∧
        (∀ t, renameChat sess now st cid t = Except.error ownErrMsg) ∧
        deleteChat sess now st cid = Except.error ownErrMsg) ∧
      (∀ uid st1, resolveUserIdV1 sess st = Except.ok (uid, st1) →
        (∀ c, findChat st1 cid = some c → c.userId ≠ uid) →
        ∀ p : SaveSnapshotParams, p.chatId = cid →
          saveChatSnapshot sess now st p = Except.ok (Res.notOk ownErrMsg, st1)) ∧
      (∀ uidOpt st1, pathwayResolveUser sess st = (uidOpt, st1) →
        (∀ c, findChat st1 cid = some c → uidOpt ≠ some c.userId) →
        ∀ p : SavePlanParams, p.chatId = cid →
          savePlanAsPathway sess st p = (Res.notOk ownErrMsg, st1)) := by
  intro sess now st cid
  refine ⟨?_, ?_, ?_⟩
  · intro uid st1 hw hbad
    have herr := assertOwnChat_error st1 cid uid hbad
    refine ⟨?_, ?_, ?_, ?_⟩
    · intro p hp
      unfold appendTurn
      rw [hw]
      dsimp only
      rw [hp, herr]
    · unfold getChatSnapshot
      rw [hw]
      dsimp only
      rw [herr]
    · intro t
      unfold renameChat
      rw [hw]
      dsimp only
      rw [herr]
    · unfold deleteChat
      rw [hw]
      dsimp only
      rw [herr]
  · intro uid st1 hres hbad p hp
    unfold saveChatSnapshot
    rw [hres]
    dsimp only
    rw [hp]
    rcases hf : findChat st1 cid with _ | c
    · rfl
    · dsimp only
      rw [if_pos (hbad c hf)]
  · intro uidOpt st1 hres hbad p hp
    unfold savePlanAsPathway
    rw [hres]
    dsimp only
    rw [hp]
    rcases hf : findChat st1 cid with _ | c
    · rfl
    · dsimp only
      rw [if_pos (hbad c hf)]

/-- C5 counterexample: on a chat owned by a different user, `appendTurn`,
`getChatSnapshot`, `renameChat` and `deleteChat` raise the ownership error
(modelled as `Except.error`) instead of returning a result value. -/
theorem spec2proof_C5_counterexample :
    appendTurn sessW 3 stW appendParamsBad = Except.error ownErrMsg ∧
    getChatSnapshot sessW stW 4 = Except.error ownErrMsg ∧
    renameChat sessW 3 stW 4 "renamed" = Except.error ownErrMsg ∧
    deleteChat sessW 3 stW 4 = Except.error ownErrMsg :=
  ⟨rfl, rfl, rfl, rfl⟩

/-- Witness for C5: the result-returning and the raising operations at the
concrete foreign-owned chat. -/
theorem spec2proof_C5_witness :
    saveChatSnapshot sessW 3 stW saveParamsBad = Except.ok (Res.notOk ownErrMsg, stW) ∧
    savePlanAsPathway sessW stW planParamsBad = (Res.notOk ownErrMsg, stW) ∧
    appendTurn sessW 3 stW appendParamsBad = Except.error ownErrMsg := by
  have hbad : ∀ c, findChat stW 4 = some c → c.userId ≠ 1 := by
    intro c hc
    rw [show findChat stW 4 = some foreignChatW from rfl] at hc
    cases Option.some.inj hc
    decide
  have hbad2 : ∀ c, findChat stW 4 = some c → (some 1 : Option Nat) ≠ some c.userId := by
    intro c hc
    rw [show findChat stW 4 = some foreignChatW from rfl] at hc
    cases Option.some.inj hc
    decide
  have h := spec2proof_C5 sessW 3 stW 4
  exact ⟨h.2.1 1 stW rfl hbad saveParamsBad rfl,
    h.2.2 (some 1) stW rfl hbad2 planParamsBad rfl,
    (h.1 1 stW rfl hbad).1 appendParamsBad rfl⟩

theorem findLatestUserByName_aux (n : String) :
    ∀ (us : List User) (acc : Option User) (u : User),
      us.foldl
        (fun acc u =>
          if u.name = some n then
            match acc with
            | none => some u
            | some b => if b.createdAt < u.createdAt then some u else some b
          else acc) acc = some u →
      (acc = some u ∨ (u ∈ us ∧ u.name = some n)) ∧
      (∀ v ∈ us, v.name = some n → v.createdAt ≤ u.createdAt) ∧
      (∀ b, acc = some b → b.createdAt ≤ u.createdAt) := by
  intro us
  induction us with
  | nil =>
    intro acc u h
    simp only [List.foldl_nil] at h
    refine ⟨Or.inl h, by simp, ?_⟩
    intro b hb
    rw [hb] at h
    cases Option.some.inj h
    exact le_refl _
  | cons a t ih =>
    intro acc u h
    rw [List.foldl_cons] at h
    by_cases hn : a.name = some n
    · rw [if_pos hn] at h
      rcases acc with _ | b0
      · obtain ⟨h1, h2, h3⟩ := ih (some a) u h
        have hau : a.createdAt ≤ u.createdAt := h3 a rfl
        refine ⟨?_, ?_, by simp⟩
        · rcases h1 with h1 | h1
          · cases Option.some.inj h1
            exact Or.inr ⟨List.mem_cons_self _ _, hn⟩
          · exact Or.inr ⟨List.mem_cons_of_mem a h1.1, h1.2⟩
        · intro v hv hvn
          rcases List.mem_cons.mp hv with rfl | hv
          · exact hau
          · exact h2 v hv hvn
      · dsimp only at h
        by_cases hlt : b0.createdAt < a.createdAt
        · rw [if_pos hlt] at h
          obtain ⟨h1, h2, h3⟩ := ih (some a) u h
          have hau : a.createdAt ≤ u.createdAt := h3 a rfl
          refine ⟨?_, ?_, ?_⟩
          · rcases h1 with h1 | h1
            · cases Option.some.inj h1
              exact Or.inr ⟨List.mem_cons_self _ _, hn⟩
            · exact Or.inr ⟨List.mem_cons_of_mem a h1.1, h1.2⟩
          · intro v hv hvn
            rcases List.mem_cons.mp hv with rfl | hv
            · exact hau
            · exact h2 v hv hvn
          · intro b hb
            cases Option.some.inj hb
            omega
        · rw [if_neg hlt] at h
          obtain ⟨h1, h2, h3⟩ := ih (some b0) u h
          have hbu : b0.createdAt ≤ u.createdAt := h3 b0 rfl
          refine ⟨?_, ?_, ?_⟩
          · rcases h1 with h1 | h1
            · exact Or.inl h1
            · exact Or.inr ⟨List.mem_cons_of_mem a h1.1, h1.2⟩
          · intro v hv hvn
            rcases List.mem_cons.mp hv with rfl | hv
            · omega
            · exact h2 v hv hvn
          · intro b hb
            cases Option.some.inj hb
            exact hbu
    · rw [if_neg hn] at h
      obtain ⟨h1, h2, h3⟩ := ih acc u h
      refine ⟨?_, ?_, h3⟩
      · rcases h1 with h1 | h1
        · exact Or.inl h1
        · exact Or.inr ⟨List.mem_cons_of_mem a h1.1, h1.2⟩
      · intro v hv hvn
        rcases List.mem_cons.mp hv with rfl | hv
        · exact absurd hvn hn
        · exact h2 v hv hvn

theorem findLatestUserByName_spec (n : String) (us : List User) (u : User)
    (h : findLatestUserByName n us = some u) :
    u ∈ us ∧ u.name = some n ∧
      ∀ v ∈ us, v.name = some n → v.createdAt ≤ u.createdAt := by
  unfold findLatestUserByName at h
  obtain ⟨h1, h2, _⟩ := findLatestUserByName_aux n us none u h
  rcases h1 with h1 | ⟨hm, hn'⟩
  · cases h1
  · exact ⟨hm, hn', h2⟩

/-- C6 (amended): the complete `resolveUserIdFromSession` variant follows the
claimed precedence — email upsert (refreshing the name when supplied), else
reuse of the most recently created user with the session's display name or
creation of a nameless-email user, else the reserved guest.  However the
state-mutating operations of the transcript store resolve the caller through
`whoami`, which invokes the resolver only when the session carries a truthy
display name and otherwise falls straight back to the guest user — so a
session carrying an email but no name resolves to the guest, skipping the
email step. -/
theorem spec2proof_C6 :
    (∀ (sess : Session) (st : DBState),
      (∀ e u, normEmail sess = some e → findUserByEmail st e = some u →
        resolveUserIdV2 sess st =
          (u.id, updateUserName st u.id (match normName sess with
            | some n => some n
            | none => u.name))) ∧
      (∀ e, normEmail sess = some e → findUserByEmail st e = none →
        resolveUserIdV2 sess st = createUser st (some e) (normName sess)) ∧
      (∀ n u, normEmail sess = none → normName sess = some n →
        findLatestUserByName n st.users = some u →
        resolveUserIdV2 sess st = (u.id, st) ∧ u ∈ st.users ∧ u.name = some n ∧
          ∀ v ∈ st.users, v.name = some n → v.createdAt ≤ u.createdAt) ∧
      (∀ n, normEmail sess = none → normName sess = some n →
        findLatestUserByName n st.users = none →
        resolveUserIdV2 sess st = createUser st none (some n)) ∧
      (normEmail sess = none → normName sess = none →
        resolveUserIdV2 sess st = ensureGuestUserId st)) ∧
    (∀ (sess : Session) (st : DBState), optStrTruthy sess.name = false →
      whoami sess st = Except.ok (ensureGuestUserId st)) := by
  constructor
  · intro sess st
    refine ⟨?_, ?_, ?_, ?_, ?_⟩
    · intro e u he hf
      unfold resolveUserIdV2
      rw [he]
      dsimp only
      rw [hf]
    · intro e he hf
      unfold resolveUserIdV2
      rw [he]
      dsimp only
      rw [hf]
    · intro n u he hn hf
      obtain ⟨hm, hn', hmax⟩ := findLatestUserByName_spec n st.users u hf
      refine ⟨?_, hm, hn', hmax⟩
      unfold resolveUserIdV2
      rw [he]
      dsimp only
      rw [hn]
      dsimp only
      rw [hf]
    · intro n he hn hf
      unfold resolveUserIdV2
      rw [he]
      dsimp only
      rw [hn]
      dsimp only
      rw [hf]
    · intro he hn
      unfold resolveUserIdV2
      rw [he]
      dsimp only
      rw [hn]
  · intro sess st h
    unfold whoami
    rw [if_neg (by simp [h])]

/-- Witness for C6: email upsert with name refresh, guest fallback, and the
`whoami` short-circuit, at concrete sessions and store. -/
theorem spec2proof_C6_witness :
    resolveUserIdV2 ⟨some "alice@example.com", some "Alice2"⟩ stW =
      (5, updateUserName stW 5 (some "Alice2")) ∧
    resolveUserIdV2 ⟨none, none⟩ stW = ensureGuestUserId stW ∧
    whoami sessEmailOnly stW = Except.ok (ensureGuestUserId stW) := by
  have h := spec2proof_C6
  exact ⟨(h.1 ⟨some "alice@example.com", some "Alice2"⟩ stW).1 "alice@example.com"
      aliceUserW rfl rfl,
    (h.1 ⟨none, none⟩ stW).2.2.2.2 rfl rfl,
    h.2 sessEmailOnly stW rfl⟩

/-- C6 counterexample: the store holds a user with the session's email, yet a
state-mutating call resolving through `whoami` on an email-only session picks
the guest user (id 1), not the email's user (id 5) — the email step is never
attempted when the session has no display name. -/
theorem spec2proof_C6_counterexample :
    whoami sessEmailOnly stW = Except.ok (1, stW) ∧
    (findUserByEmail stW "alice@example.com").map User.id = some 5 ∧
    (1 : Nat) ≠ 5 := ⟨rfl, rfl, by decide⟩

theorem find?_append_of_none {α : Type} (p : α → Bool) (l1 l2 : List α)
    (h : l1.find? p = none) : (l1 ++ l2).find? p = l2.find? p := by
  induction l1 with
  | nil => simp
  | cons a t ih =>
    have hpa : ¬p a = true := (List.find?_eq_none.mp h) a (by simp)
    rw [List.find?_cons_of_neg _ hpa] at h
    rw [List.cons_append, List.find?_cons_of_neg _ hpa]
    exact ih h

theorem findUserByEmail_congr (st st' : DBState) (h : st'.users = st.users) (e : String) :
    findUserByEmail st' e = findUserByEmail st e := by
  unfold findUserByEmail
  rw [h]

theorem ensureGuest_congr (st st' : DBState) (h : st'.users = st.users)
    (g : User) (hg : findUserByEmail st guestEmail = some g) :
    ensureGuestUserId st = (g.id, st) ∧ ensureGuestUserId st' = (g.id, st') := by
  unfold ensureGuestUserId
  rw [findUserByEmail_congr st st' h, hg]
  exact ⟨rfl, rfl⟩

theorem pathwayResolveUser_stable (sess : Session) (st st' : DBState) (uid : Nat)
    (h : pathwayResolveUser sess st = (some uid, st))
    (husers : st'.users = st.users) :
    pathwayResolveUser sess st' = (some uid, st') := by
  unfold pathwayResolveUser at h ⊢
  have hguest : ∀ hyp : (let g := ensureGuestUserId st; ((some g.1 : Option Nat), g.2)) =
      (some uid, st),
      (let g := ensureGuestUserId st'; ((some g.1 : Option Nat), g.2)) = (some uid, st') := by
    intro hyp
    rcases hg : findUserByEmail st guestEmail with _ | g
    · exfalso
      have h2 : (ensureGuestUserId st).2 = st := congrArg Prod.snd hyp
      unfold ensureGuestUserId at h2
      rw [hg] at h2
      unfold createUser at h2
      have := congrArg DBState.users h2
      simp at this
    · obtain ⟨hst, hst'⟩ := ensureGuest_congr st st' husers g hg
      rw [hst] at hyp
      have huid : g.id = uid := by
        have := congrArg Prod.fst hyp
        simpa using this
      rw [hst', huid]
  rcases he : sess.email with _ | e
  · rw [he] at h
    exact hguest h
  · rw [he] at h
    dsimp only at h ⊢
    by_cases he0 : e = ""
    · rw [if_pos he0] at h ⊢
      exact hguest h
    · rw [if_neg he0] at h ⊢
      rw [findUserByEmail_congr st st' husers]
      have h1 := congrArg Prod.fst h
      dsimp only at h1
      rw [h1]

theorem filter_map_pres {α : Type} (g : α → α) (p : α → Bool) (l : List α)
    (h : ∀ x, p (g x) = p x) : (l.map g).filter p = (l.filter p).map g := by
  induction l with
  | nil => rfl
  | cons a t ih =>
    simp only [List.map_cons, List.filter_cons, h a]
    cases hpa : p a <;> simp [ih]

/-- C7: saving a plan twice for the same chat yields exactly one pathway row:
the first call (no row present) creates one with status defaulting to DRAFT
and reports `created = true`; the second call updates it in place — fields
left undefined are not overwritten, `planSpec` becomes the second plan — and
reports `created = false` with the same row id. -/
theorem spec2proof_C7 :
    ∀ (sess : Session) (st : DBState) (p1 p2 : SavePlanParams) (uid : Nat) (c : Chat),
      pathwayResolveUser sess st = (some uid, st) →
      findChat st p1.chatId = some c →
      c.userId = uid →
      p2.chatId = p1.chatId →
      findPathwayByChat st p1.chatId = none →
      ∃ stB, savePlanAsPathway sess st p1 = (Res.ok ⟨st.nextId, true⟩, stB) ∧
        ∃ pw1, findPathwayByChat stB p1.chatId = some pw1 ∧
          pw1 = pathwayCreateRow p1 c.userId st.nextId ∧
          pw1.id = st.nextId ∧ pw1.chatId = p1.chatId ∧ pw1.planSpec = p1.plan ∧
          pw1.title = p1.title ∧
          (p1.status = none → pw1.status = PathwayStatus.DRAFT) ∧
          (stB.pathways.filter (fun pw => pw.chatId = p1.chatId)).length = 1 ∧
          ∃ stC, savePlanAsPathway sess stB p2 = (Res.ok ⟨pw1.id, false⟩, stC) ∧
            (stC.pathways.filter (fun pw => pw.chatId = p1.chatId)).length = 1 ∧
            ∃ pw2, findPathwayByChat stC p1.chatId = some pw2 ∧
              pw2 = pathwayUpdateRow p2 pw1 ∧
              pw2.id = pw1.id ∧ pw2.planSpec = p2.plan ∧
              (p2.title = none → pw2.title = pw1.title) ∧
              (∀ t, p2.title = some t → pw2.title = some t) ∧
              (p2.status = none → pw2.status = pw1.status) ∧
              (∀ s, p2.status = some s → pw2.status = s) := by
  intro sess st p1 p2 uid c hres hfc hcu hp2 hnopw
  have hownNe : ¬((some uid : Option Nat) ≠ some c.userId) := by simp [hcu]
  -- the created row and the state after the first call
  have hfirst : savePlanAsPathway sess st p1 =
      (Res.ok ⟨st.nextId, true⟩,
       { st with
           pathways := st.pathways ++ [pathwayCreateRow p1 c.userId st.nextId],
           nextId := st.nextId + 1 }) := by
    unfold savePlanAsPathway
    rw [hres]
    dsimp only
    rw [hfc]
    dsimp only
    rw [if_neg hownNe, hnopw]
  have hnof : st.pathways.find? (fun pw => pw.chatId = p1.chatId) = none := hnopw
  have hrowfind : findPathwayByChat
      { st with
          pathways := st.pathways ++ [pathwayCreateRow p1 c.userId st.nextId],
          nextId := st.nextId + 1 } p1.chatId = some (pathwayCreateRow p1 c.userId st.nextId) := by
    unfold findPathwayByChat
    dsimp only
    rw [find?_append_of_none _ _ _ hnof]
    simp [pathwayCreateRow]
  refine ⟨_, hfirst, pathwayCreateRow p1 c.userId st.nextId, hrowfind, rfl, rfl, rfl, rfl,
    rfl, ?_, ?_, ?_⟩
  · intro h
    simp [pathwayCreateRow, h]
  · -- exactly one row for the chat after creation
    dsimp only
    rw [List.filter_append, List.filter_eq_nil_iff.mpr ?hnil]
    case hnil =>
      intro a ha
      have := List.find?_eq_none.mp hnof a ha
      simpa using this
    simp [pathwayCreateRow]
  · -- the second call
    have hres2 : pathwayResolveUser sess
        { st with
            pathways := st.pathways ++ [pathwayCreateRow p1 c.userId st.nextId],
            nextId := st.nextId + 1 } =
        (some uid,
         { st with
             pathways := st.pathways ++ [pathwayCreateRow p1 c.userId st.nextId],
             nextId := st.nextId + 1 }) :=
      pathwayResolveUser_stable sess st _ uid hres rfl
    have hfc2 : findChat
        { st with
            pathways := st.pathways ++ [pathwayCreateRow p1 c.userId st.nextId],
            nextId := st.nextId + 1 } p2.chatId = some c := by
      rw [hp2]
      exact hfc
    have hsecond : savePlanAsPathway sess
        { st with
            pathways := st.pathways ++ [pathwayCreateRow p1 c.userId st.nextId],
            nextId := st.nextId + 1 } p2 =
        (Res.ok ⟨(pathwayCreateRow p1 c.userId st.nextId).id, false⟩,
         { st with
             pathways := (st.pathways ++ [pathwayCreateRow p1 c.userId st.nextId]).map
               (fun pw => if pw.id = (pathwayCreateRow p1 c.userId st.nextId).id
                 then pathwayUpdateRow p2 pw else pw),
             nextId := st.nextId + 1 }) := by
      unfold savePlanAsPathway
      rw [hres2]
      dsimp only
      rw [hfc2]
      dsimp only
      rw [if_neg hownNe, hp2, hrowfind]
    have hpres : ∀ pw : Pathway,
        (decide (((fun pw => if pw.id = (pathwayCreateRow p1 c.userId st.nextId).id
          then pathwayUpdateRow p2 pw else pw) pw).chatId = p1.chatId) : Bool) =
        decide (pw.chatId = p1.chatId) := by
      intro pw
      by_cases hid : pw.id = (pathwayCreateRow p1 c.userId st.nextId).id
      · simp only [hid, if_pos]
        rfl
      · simp only [if_neg hid]
    have hfind2 : findPathwayByChat
        { st with
            pathways := (st.pathways ++ [pathwayCreateRow p1 c.userId st.nextId]).map
              (fun pw => if pw.id = (pathwayCreateRow p1 c.userId st.nextId).id
                then pathwayUpdateRow p2 pw else pw),
            nextId := st.nextId + 1 } p1.chatId =
        some (pathwayUpdateRow p2 (pathwayCreateRow p1 c.userId st.nextId)) := by
      unfold findPathwayByChat
      dsimp only
      rw [find?_map_pres _ _ _ hpres]
      rw [show (st.pathways ++ [pathwayCreateRow p1 c.userId st.nextId]).find?
          (fun pw => pw.chatId = p1.chatId) = some (pathwayCreateRow p1 c.userId st.nextId)
        from hrowfind]
      rw [Option.map_some', if_pos rfl]
    refine ⟨_, hsecond, ?_, pathwayUpdateRow p2 (pathwayCreateRow p1 c.userId st.nextId),
      hfind2, rfl, rfl, rfl, ?_, ?_, ?_, ?_⟩
    · -- still exactly one row for the chat
      dsimp only
      rw [filter_map_pres _ _ _ hpres]
      rw [List.filter_append, List.filter_eq_nil_iff.mpr ?hnil2]
      case hnil2 =>
        intro a ha
        have := List.find?_eq_none.mp hnof a ha
        simpa using this
      simp [pathwayCreateRow]
    · intro h
      simp [pathwayUpdateRow, h]
    · intro t ht
      simp [pathwayUpdateRow, ht]
    · intro h
      simp [pathwayUpdateRow, h]
    · intro s hs
      simp [pathwayUpdateRow, hs]

/-- Witness for C7: two concrete saves for the guest-owned chat — create then
update-in-place. -/
theorem spec2proof_C7_witness :
    ∃ stB, savePlanAsPathway sessW stW planParamsW1 = (Res.ok ⟨stW.nextId, true⟩, stB) ∧
      ∃ pw1, findPathwayByChat stB planParamsW1.chatId = some pw1 ∧
        pw1 = pathwayCreateRow planParamsW1 chatW.userId stW.nextId ∧
        pw1.id = stW.nextId ∧ pw1.chatId = planParamsW1.chatId ∧
        pw1.planSpec = planParamsW1.plan ∧
        pw1.title = planParamsW1.title ∧
        (planParamsW1.status = none → pw1.status = PathwayStatus.DRAFT) ∧
        (stB.pathways.filter (fun pw => pw.chatId = planParamsW1.chatId)).length = 1 ∧
        ∃ stC, savePlanAsPathway sessW stB planParamsW2 = (Res.ok ⟨pw1.id, false⟩, stC) ∧
          (stC.pathways.filter (fun pw => pw.chatId = planParamsW1.chatId)).length = 1 ∧
          ∃ pw2, findPathwayByChat stC planParamsW1.chatId = some pw2 ∧
            pw2 = pathwayUpdateRow planParamsW2 pw1 ∧
            pw2.id = pw1.id ∧ pw2.planSpec = planParamsW2.plan ∧
            (planParamsW2.title = none → pw2.title = pw1.title) ∧
            (∀ t, planParamsW2.title = some t → pw2.title = some t) ∧
            (planParamsW2.status = none → pw2.status = pw1.status) ∧
            (∀ s, planParamsW2.status = some s → pw2.status = s) :=
  spec2proof_C7 sessW stW planParamsW1 planParamsW2 1 chatW rfl rfl rfl rfl rfl

theorem findChat_setDeleted (st : DBState) (cid cid' : Nat) (d : Option Nat) :
    findChat (setChatDeleted st cid d) cid' =
      (findChat st cid').map
        (fun c => if c.id = cid then { c with deletedAt := d } else c) := by
  unfold setChatDeleted
  exact findChat_mapChat st cid cid' (fun c => { c with deletedAt := d }) (fun x => rfl)

theorem assertOwnChat_setDeleted (st : DBState) (cid cid' uid : Nat) (d : Option Nat) :
    assertOwnChat (setChatDeleted st cid d) cid' uid = assertOwnChat st cid' uid := by
  unfold assertOwnChat
  rw [findChat_setDeleted]
  rcases findChat st cid' with _ | c
  · rfl
  · rw [Option.map_some']
    by_cases hc : c.id = cid
    · rw [if_pos hc]
    · rw [if_neg hc]

theorem ensureGuest_setDeleted (st : DBState) (cid : Nat) (d : Option Nat) :
    ensureGuestUserId (setChatDeleted st cid d) =
      ((ensureGuestUserId st).1, setChatDeleted (ensureGuestUserId st).2 cid d) := by
  unfold ensureGuestUserId
  rw [findUserByEmail_congr st (setChatDeleted st cid d) rfl guestEmail]
  rcases findUserByEmail st guestEmail with _ | g
  · rfl
  · rfl

theorem resolveV1_setDeleted (sess : Session) (st : DBState) (cid : Nat) (d : Option Nat) :
    resolveUserIdV1 sess (setChatDeleted st cid d) =
      (resolveUserIdV1 sess st).map (fun r => (r.1, setChatDeleted r.2 cid d)) := by
  unfold resolveUserIdV1
  rcases normEmail sess with _ | e
  · rcases normName sess with _ | n
    · dsimp only
      rw [ensureGuest_setDeleted]
      rfl
    · dsimp only
      rw [show (setChatDeleted st cid d).users = st.users from rfl]
      rcases findLatestUserByName n st.users with _ | u
      · rfl
      · rfl
  · dsimp only
    rw [findUserByEmail_congr st (setChatDeleted st cid d) rfl e]
    rcases findUserByEmail st e with _ | u
    · rfl
    · rfl

theorem whoami_setDeleted (sess : Session) (st : DBState) (cid : Nat) (d : Option Nat) :
    whoami sess (setChatDeleted st cid d) =
      (whoami sess st).map (fun r => (r.1, setChatDeleted r.2 cid d)) := by
  unfold whoami
  by_cases hg : optStrTruthy sess.name
  · rw [if_pos hg, if_pos hg, resolveV1_setDeleted]
  · rw [if_neg hg, if_neg hg, ensureGuest_setDeleted]
    rfl

theorem appendTurn_setDeleted (sess : Session) (now : Nat) (st : DBState)
    (p : AppendTurnParams) (cid : Nat) (d : Option Nat) :
    (appendTurn sess now (setChatDeleted st cid d) p).map Prod.fst =
      (appendTurn sess now st p).map Prod.fst := by
  unfold appendTurn
  rw [whoami_setDeleted]
  rcases whoami sess st with e | ⟨uid, st1⟩
  · rfl
  · dsimp only [Except.map]
    rw [assertOwnChat_setDeleted]
    rcases assertOwnChat st1 p.chatId uid with e | u
    · rfl
    · dsimp only
      rw [findChat_setDeleted]
      rcases findChat st1 p.chatId with _ | c
      · rfl
      · rw [Option.map_some']

theorem getChatSnapshot_setDeleted (sess : Session) (st : DBState) (chatId cid : Nat)
    (d : Option Nat) :
    (getChatSnapshot sess (setChatDeleted st cid d) chatId).map Prod.fst =
      (getChatSnapshot sess st chatId).map Prod.fst := by
  unfold getChatSnapshot
  rw [whoami_setDeleted]
  rcases whoami sess st with e | ⟨uid, st1⟩
  · rfl
  · dsimp only [Except.map]
    rw [assertOwnChat_setDeleted]
    rcases assertOwnChat st1 chatId uid with e | u
    · rfl
    · dsimp only
      rw [findChat_setDeleted]
      rcases findChat st1 chatId with _ | c
      · rfl
      · rw [Option.map_some']
        by_cases hc : c.id = cid
        · rw [if_pos hc]
        · rw [if_neg hc]

theorem saveChatSnapshot_setDeleted (sess : Session) (now : Nat) (st : DBState)
    (p : SaveSnapshotParams) (cid : Nat) (d : Option Nat) :
    (saveChatSnapshot sess now (setChatDeleted st cid d) p).map Prod.fst =
      (saveChatSnapshot sess now st p).map Prod.fst := by
  unfold saveChatSnapshot
  rw [resolveV1_setDeleted]
  rcases resolveUserIdV1 sess st with e | ⟨uid, st1⟩
  · rfl
  · dsimp only [Except.map]
    rw [findChat_setDeleted]
    rcases findChat st1 p.chatId with _ | c
    · rfl
    · rw [Option.map_some']
      by_cases hc : c.id = cid
      · rw [if_pos hc]
        dsimp only
        by_cases hu : c.userId ≠ uid
        · rw [if_pos hu, if_pos hu]
        · rw [if_neg hu, if_neg hu]
      · rw [if_neg hc]
        dsimp only
        by_cases hu : c.userId ≠ uid
        · rw [if_pos hu, if_pos hu]
        · rw [if_neg hu, if_neg hu]

theorem renameChat_setDeleted (sess : Session) (now : Nat) (st : DBState)
    (chatId cid : Nat) (d : Option Nat) (t : String) :
    (renameChat sess now (setChatDeleted st cid d) chatId t).map Prod.fst =
      (renameChat sess now st chatId t).map Prod.fst := by
  unfold renameChat
  rw [whoami_setDeleted]
  rcases whoami sess st with e | ⟨uid, st1⟩
  · rfl
  · dsimp only [Except.map]
    rw [assertOwnChat_setDeleted]
    rcases assertOwnChat st1 chatId uid with e | u
    · rfl
    · rfl

theorem mem_insertByUpdatedDesc (c x : ChatListItem) (l : List ChatListItem) :
    x ∈ insertByUpdatedDesc c l ↔ x = c ∨ x ∈ l := by
  induction l with
  | nil => simp [insertByUpdatedDesc]
  | cons a t ih =>
    unfold insertByUpdatedDesc
    by_cases h : a.updatedAt ≤ c.updatedAt
    · rw [if_pos h]
      simp
    · rw [if_neg h]
      simp [ih]
      tauto

theorem mem_sortByUpdatedDesc (l : List ChatListItem) (x : ChatListItem) :
    x ∈ sortByUpdatedDesc l ↔ x ∈ l := by
  induction l with
  | nil => simp [sortByUpdatedDesc]
  | cons a t ih =>
    unfold sortByUpdatedDesc at *
    rw [List.foldr_cons, mem_insertByUpdatedDesc]
    simp [ih]

theorem listChats_spec (sess : Session) (st : DBState) (uid : Nat) (st1 : DBState)
    (hw : whoami sess st = Except.ok (uid, st1)) :
    ∃ items, listChats sess st = Except.ok (Res.ok items, st1) ∧
      ∀ it, it ∈ items ↔ ∃ c, c ∈ st1.chats ∧ c.userId = uid ∧ c.deletedAt = none ∧
        it = ChatListItem.mk c.id c.title c.updatedAt c.startedAt := by
  unfold listChats
  rw [hw]
  dsimp only
  refine ⟨_, rfl, ?_⟩
  intro it
  rw [mem_sortByUpdatedDesc]
  simp only [List.mem_map, List.mem_filter, Bool.and_eq_true, decide_eq_true_eq]
  constructor
  · rintro ⟨c, ⟨hm, hu, hd⟩, hit⟩
    exact ⟨c, hm, hu, hd, hit.symm⟩
  · rintro ⟨c, hm, hu, hd, hit⟩
    exact ⟨c, ⟨hm, hu, hd⟩, hit.symm⟩

theorem deleteChat_marks (sess : Session) (now : Nat) (st : DBState) (cid : Nat)
    (uid : Nat) (st1 : DBState) (c : Chat)
    (hw : whoami sess st = Except.ok (uid, st1))
    (hfc : findChat st1 cid = some c)
    (hcu : c.userId = uid) :
    ∃ st2, deleteChat sess now st cid = Except.ok (Res.ok (), st2) ∧
      ∃ c2, findChat st2 cid = some c2 ∧ c2.deletedAt = some now := by
  have hassert : assertOwnChat st1 cid uid = Except.ok () :=
    (assertOwnChat_ok_iff _ _ _).mpr ⟨c, hfc, hcu⟩
  have hid : c.id = cid := findChat_id st1 cid c hfc
  unfold deleteChat
  rw [hw]
  dsimp only
  rw [hassert]
  dsimp only
  refine ⟨_, rfl, ?_⟩
  rw [findChat_mapChat st1 cid cid (fun c => { c with deletedAt := some now, updatedAt := now })
    (fun x => rfl), hfc, Option.map_some', if_pos hid]
  exact ⟨_, rfl, rfl⟩

/-- C10: soft deletion only affects `listChats`.  The ownership check never
reads `deletedAt`, so overwriting a chat's `deletedAt` marker changes neither
the assertion's outcome nor the caller-visible result of `getChatSnapshot`,
`appendTurn`, `saveChatSnapshot` or `renameChat`; `deleteChat` merely sets the
marker; and `listChats` returns exactly the caller's chats whose `deletedAt`
is null. -/
theorem spec2proof_C10 :
    (∀ (st : DBState) (cid cid' uid : Nat) (d : Option Nat),
      assertOwnChat (setChatDeleted st cid d) cid' uid = assertOwnChat st cid' uid) ∧
    (∀ (sess : Session) (now : Nat) (st : DBState) (p : AppendTurnParams)
        (cid : Nat) (d : Option Nat),
      (appendTurn sess now (setChatDeleted st cid d) p).map Prod.fst =
        (appendTurn sess now st p).map Prod.fst) ∧
    (∀ (sess : Session) (st : DBState) (chatId cid : Nat) (d : Option Nat),
      (getChatSnapshot sess (setChatDeleted st cid d) chatId).map Prod.fst =
        (getChatSnapshot sess st chatId).map Prod.fst) ∧
    (∀ (sess : Session) (now : Nat) (st : DBState) (p : SaveSnapshotParams)
        (cid : Nat) (d : Option Nat),
      (saveChatSnapshot sess now (setChatDeleted st cid d) p).map Prod.fst =
        (saveChatSnapshot sess now st p).map Prod.fst) ∧
    (∀ (sess : Session) (now : Nat) (st : DBState) (chatId cid : Nat)
        (d : Option Nat) (t : String),
      (renameChat sess now (setChatDeleted st cid d) chatId t).map Prod.fst =
        (renameChat sess now st chatId t).map Prod.fst) ∧
    (∀ (sess : Session) (st : DBState) (uid : Nat) (st1 : DBState),
      whoami sess st = Except.ok (uid, st1) →
      ∃ items, listChats sess st = Except.ok (Res.ok items, st1) ∧
        ∀ it, it ∈ items ↔ ∃ c, c ∈ st1.chats ∧ c.userId = uid ∧ c.deletedAt = none ∧
          it = ChatListItem.mk c.id c.title c.updatedAt c.startedAt) ∧
    (∀ (sess : Session) (now : Nat) (st : DBState) (cid uid : Nat) (st1 : DBState)
        (c : Chat),
      whoami sess st = Except.ok (uid, st1) →
      findChat st1 cid = some c →
      c.userId = uid →
      ∃ st2, deleteChat sess now st cid = Except.ok (Res.ok (), st2) ∧
        ∃ c2, findChat st2 cid = some c2 ∧ c2.deletedAt = some now) :=
  ⟨assertOwnChat_setDeleted, appendTurn_setDeleted, getChatSnapshot_setDeleted,
   saveChatSnapshot_setDeleted, renameChat_setDeleted, listChats_spec, deleteChat_marks⟩

/-- Witness for C10: at the concrete store, soft-deleting the guest's chat
leaves the guarded operations' outcomes unchanged, `deleteChat` sets the
marker, and `listChats` lists exactly the live owned chats. -/
theorem spec2proof_C10_witness :
    assertOwnChat (setChatDeleted stW 2 (some 5)) 2 1 = assertOwnChat stW 2 1 ∧
    (appendTurn sessW 3 (setChatDeleted stW 2 (some 5)) appendParamsW).map Prod.fst =
      (appendTurn sessW 3 stW appendParamsW).map Prod.fst ∧
    (getChatSnapshot sessW (setChatDeleted stW 2 (some 5)) 2).map Prod.fst =
      (getChatSnapshot sessW stW 2).map Prod.fst ∧
    (∃ items, listChats sessW stW = Except.ok (Res.ok items, stW) ∧
      ∀ it, it ∈ items ↔ ∃ c, c ∈ stW.chats ∧ c.userId = 1 ∧ c.deletedAt = none ∧
        it = ChatListItem.mk c.id c.title c.updatedAt c.startedAt) ∧
    (∃ st2, deleteChat sessW 3 stW 2 = Except.ok (Res.ok (), st2) ∧
      ∃ c2, findChat st2 2 = some c2 ∧ c2.deletedAt = some 3) :=
  ⟨spec2proof_C10.1 stW 2 2 1 (some 5),
   spec2proof_C10.2.1 sessW 3 stW appendParamsW 2 (some 5),
   spec2proof_C10.2.2.1 sessW stW 2 2 (some 5),
   spec2proof_C10.2.2.2.2.2.1 sessW stW 1 stW rfl,
   spec2proof_C10.2.2.2.2.2.2 sessW 3 stW 2 1 stW chatW rfl rfl rfl⟩
